import Mathlib

/-!
# Motor Town server tool: instance registry, remote control client, validators

A shallow embedding of the Go sources

* `modules/config/config.go`    (the instance registry),
* `modules/api/client.go`       (the HTTP administrative client),
* `modules/commands/configure/configure.go` (field validators, prompts and
  the operations of the wizard),
* `modules/commands/connect/connect.go` (the handlers and the loop of the
  session),

followed by theorems about them.

Conventions of the embedding.

* A Go `string` is a Lean `String`; `len(s)` is the UTF-8 byte count
  `String.utf8ByteSize`.
* A Go `int` is an `Int`; the 64-bit range is made explicit where a parser
  can overflow (`Atoi`).
* A Go `map[string]T` is an association list read through `GoMap.get`;
  the nil map is `none` where the source distinguishes it.
* A Go result pair `(*T, error)` is a record of two options.
* A call that can panic returns a `Run`; the theorems show that none does.
* The lines of standard input are a list; what is printed is left out.
-/

namespace MotorTown

/-! ## Go maps -/

/-- A Go `map[string]T`, as a list of bindings. -/
abbrev GoMap (α : Type) := List (String × α)

namespace GoMap

/-- The two-valued read `v, ok := m[k]`, with `none` for `ok = false`. -/
def get {α : Type} (m : GoMap α) (k : String) : Option α :=
  match m with
  | [] => none
  | (k', v) :: rest => if k' = k then some v else get rest k

/-- The built-in `delete(m, k)`. -/
def delete {α : Type} (m : GoMap α) (k : String) : GoMap α :=
  m.filter (fun kv => !decide (kv.1 = k))

/-- The assignment `m[k] = v`: the binding of `k` is replaced, or added. -/
def set {α : Type} (m : GoMap α) (k : String) (v : α) : GoMap α :=
  match m with
  | [] => [(k, v)]
  | (k', v') :: rest => if k' = k then (k, v) :: delete rest k else (k', v') :: set rest k v

/-- The keys of the map, `for k := range m`. -/
def keys {α : Type} (m : GoMap α) : List String := m.map Prod.fst

end GoMap

/-! ## `modules/types`: the instance record -/

/-- Modelled from the spec: the record `types.Instance` of `modules/types`,
whose declaration is not among the sources. Its fields are the spec's address,
port and secret, under the names the sources read and write them by
(`instance.IP`, a string; `instance.Port`, an `int`; `instance.Password`, a
string). -/
structure Instance where
  IP : String
  Port : Int
  Password : String
deriving DecidableEq, Repr

/-- The Go zero value `types.Instance{}`. -/
def Instance.zero : Instance := { IP := "", Port := 0, Password := "" }

/-! ## `modules/config/config.go` -/

namespace config

/-- The registry `Config`; `Instances = none` is the nil map. -/
structure Config where
  Instances : Option (GoMap Instance)
deriving DecidableEq, Repr

/-- Embeds `func (c *Config) AddInstance(name string, instance types.Instance)` -/
def AddInstance (c : Config) (name : String) (inst : Instance) : Config :=
  let m : GoMap Instance :=
    match c.Instances with
    | none => []
    | some m => m
  { Instances := some (GoMap.set m name inst) }

/-- Embeds `func (c *Config) GetInstance(name string) (types.Instance, bool)`;
a read of the nil map yields the zero value and `false`. -/
def GetInstance (c : Config) (name : String) : Instance × Bool :=
  match c.Instances with
  | none => (Instance.zero, false)
  | some m =>
    match GoMap.get m name with
    | some inst => (inst, true)
    | none => (Instance.zero, false)

/-- Embeds `func (c *Config) DeleteInstance(name string) bool`: the new registry
and the returned flag. -/
def DeleteInstance (c : Config) (name : String) : Config × Bool :=
  match c.Instances with
  | none => (c, false)
  | some m =>
    match GoMap.get m name with
    | some _ => ({ Instances := some (GoMap.delete m name) }, true)
    | none => (c, false)

/-- Embeds `func (c *Config) ListInstances() []string` (in the order of the bindings;
the callers sort the result). -/
def ListInstances (c : Config) : List String :=
  match c.Instances with
  | none => []
  | some m => GoMap.keys m

end config

/-! ## Go library functions used by the client -/

/-- Embeds `strconv.Itoa`, which is also what the verb `%d` of `fmt` prints for an
`int`: decimal digits, with a leading `-` for a negative number. -/
def Itoa : Int → String
  | Int.ofNat n => Nat.repr n
  | Int.negSucc n => "-" ++ Nat.repr (n + 1)

/-- The UTF-8 encoding of one character: the bytes a Go string holds for it. -/
def utf8Bytes (c : Char) : List Nat :=
  let n := c.toNat
  if n < 0x80 then [n]
  else if n < 0x800 then [0xC0 + n / 64, 0x80 + n % 64]
  else if n < 0x10000 then [0xE0 + n / 4096, 0x80 + n / 64 % 64, 0x80 + n % 64]
  else [0xF0 + n / 262144, 0x80 + n / 4096 % 64, 0x80 + n / 64 % 64, 0x80 + n % 64]

/-- The bytes of a Go string. -/
def goBytes (s : String) : List Nat := s.data.flatMap utf8Bytes

/-- The table `upperhex` of `net/url`. -/
def upperhex (d : Nat) : Char := "0123456789ABCDEF".data.getD d '0'

/-- Embeds `shouldEscape(c, encodeQueryComponent)` of `net/url`: only the unreserved
bytes `A-Z a-z 0-9 - _ . ~` are left as they are. -/
def shouldEscape (b : Nat) : Bool :=
  !((97 ≤ b && b ≤ 122) || (65 ≤ b && b ≤ 90) || (48 ≤ b && b ≤ 57)
    || b = 45 || b = 95 || b = 46 || b = 126)

/-- One byte under `url.QueryEscape`: a space becomes `+`, an escaped byte
becomes `%XX`. -/
def escapeByte (b : Nat) : List Char :=
  if b = 32 then ['+']
  else if shouldEscape b then ['%', upperhex (b / 16), upperhex (b % 16)]
  else [Char.ofNat b]

/-- Embeds `url.QueryEscape`. -/
def QueryEscape (s : String) : String :=
  String.mk ((goBytes s).flatMap escapeByte)

/-- Embeds `url.Values`, a `map[string][]string`. -/
abbrev Values := GoMap (List String)

/-- Embeds `func (v Values) Set(key, value string)` -/
def Values.Set (v : Values) (key value : String) : Values := GoMap.set v key [value]

/-- The order `<` of Go strings on their bytes: lexicographic. -/
def bytesLess : List Nat → List Nat → Bool
  | _, [] => false
  | [], _ :: _ => true
  | a :: as, b :: bs => a < b || (a = b && bytesLess as bs)

/-- Insertion of a key into a sorted list of keys. -/
def insertKey (k : String) : List String → List String
  | [] => [k]
  | x :: xs => if bytesLess (goBytes k) (goBytes x) then k :: x :: xs else x :: insertKey k xs

/-- Embeds `slices.Sort(keys)`: the keys in increasing order. -/
def sortKeys : List String → List String
  | [] => []
  | k :: ks => insertKey k (sortKeys ks)

/-- The body of the inner loop of `Values.Encode`: an `&` when the buffer is
not empty, then the escaped key, `=` and the escaped value. -/
def appendPair (buf key val : String) : String :=
  (if buf.utf8ByteSize > 0 then buf ++ "&" else buf) ++ QueryEscape key ++ "=" ++ QueryEscape val

/-- Embeds `func (v Values) Encode() string`: the pairs `key=value`, both sides
escaped, joined by `&`, in the order of the sorted keys. -/
def Values.Encode (v : Values) : String :=
  (sortKeys (GoMap.keys v)).foldl
    (fun buf k => ((GoMap.get v k).getD []).foldl (fun buf val => appendPair buf k val) buf)
    ""

/-! ## `modules/api/client.go` -/

namespace api

/-- The envelope `APIResponse`; `D` is the type of the decoded `data` field
(an `interface{}` in the source). -/
structure APIResponse (D : Type) where
  Data : D
  Message : String
  Succeeded : Bool

/-- A result pair `(*APIResponse, error)`: `resp = none` is the nil pointer,
`err = none` the nil error, an error being its message. -/
structure Result (D : Type) where
  resp : Option (APIResponse D)
  err : Option String

/-- A request handed to the HTTP library: the verb and the full URL. There is
no body and no header set by the client. -/
structure Request where
  method : String
  url : String
deriving DecidableEq, Repr

/-- What the HTTP library and the remote server make of a request. -/
inductive Reply (D : Type) where
  /-- The call of `http.NewRequest` refuses the verb or the URL. -/
  | createFailed (err : String)
  /-- The call of `client.Do` fails: no connection, timeout. -/
  | sendFailed (err : String)
  /-- A response arrived and its body is not an envelope. -/
  | undecodable (status : Int) (err : String)
  /-- A response arrived and its body decodes to an envelope. -/
  | decoded (status : Int) (body : APIResponse D)

/-- The network seen from the client. -/
abbrev Transport (D : Type) := Request → Reply D

/-- The query parameters of `makeGETRequest` and `makePOSTRequest`:
`password` first, then every extra parameter through `params.Set`. -/
def buildParams (inst : Instance) (extraParams : GoMap String) : Values :=
  extraParams.foldl (fun params kv => Values.Set params kv.1 kv.2)
    (Values.Set [] "password" inst.Password)

/-- The string `fullURL` of `makeGETRequest` and `makePOSTRequest`. -/
def fullURL (inst : Instance) (endpoint : String) (extraParams : GoMap String) : String :=
  let baseURL := "http://" ++ inst.IP ++ ":" ++ Itoa inst.Port
  baseURL ++ endpoint ++ "?" ++ Values.Encode (buildParams inst extraParams)

/-- Embeds `func makeGETRequest(instance, endpoint, extraParams) (*APIResponse, error)`,
with the list of the requests it handed to the HTTP library. `client.Get`
reports a URL it cannot turn into a request as its own error. -/
def makeGETRequest {D : Type} (http : Transport D) (inst : Instance) (endpoint : String)
    (extraParams : GoMap String) : Result D × List Request :=
  let req : Request := { method := "GET", url := fullURL inst endpoint extraParams }
  match http req with
  | .createFailed e => ({ resp := none, err := some ("failed to send request: " ++ e) }, [req])
  | .sendFailed e => ({ resp := none, err := some ("failed to send request: " ++ e) }, [req])
  | .undecodable _ e =>
    ({ resp := none, err := some ("failed to decode response: " ++ e) }, [req])
  | .decoded status apiResp =>
    if status ≠ 200 then
      ({ resp := some apiResp,
         err := some ("HTTP " ++ Itoa status ++ ": " ++ apiResp.Message) }, [req])
    else if !apiResp.Succeeded then
      ({ resp := some apiResp, err := some ("API call failed: " ++ apiResp.Message) }, [req])
    else
      ({ resp := some apiResp, err := none }, [req])

/-- Embeds `func makePOSTRequest(instance, endpoint, extraParams) (*APIResponse, error)`,
with the list of the requests it handed to the HTTP library. -/
def makePOSTRequest {D : Type} (http : Transport D) (inst : Instance) (endpoint : String)
    (extraParams : GoMap String) : Result D × List Request :=
  let req : Request := { method := "POST", url := fullURL inst endpoint extraParams }
  match http req with
  | .createFailed e => ({ resp := none, err := some ("failed to create request: " ++ e) }, [req])
  | .sendFailed e => ({ resp := none, err := some ("failed to send request: " ++ e) }, [req])
  | .undecodable _ e =>
    ({ resp := none, err := some ("failed to decode response: " ++ e) }, [req])
  | .decoded status apiResp =>
    if status ≠ 200 then
      ({ resp := some apiResp,
         err := some ("HTTP " ++ Itoa status ++ ": " ++ apiResp.Message) }, [req])
    else if !apiResp.Succeeded then
      ({ resp := some apiResp, err := some ("API call failed: " ++ apiResp.Message) }, [req])
    else
      ({ resp := some apiResp, err := none }, [req])

/-- Embeds `func SendChatMessage(instance, message string) (*APIResponse, error)` -/
def SendChatMessage {D : Type} (http : Transport D) (inst : Instance) (message : String) :
    Result D × List Request :=
  if message = "" then
    ({ resp := none, err := some "message cannot be empty" }, [])
  else
    let params : GoMap String := [("message", message)]
    makePOSTRequest http inst "/chat" params

/-- Embeds `func GetPlayerCount(instance) (*APIResponse, error)` -/
def GetPlayerCount {D : Type} (http : Transport D) (inst : Instance) : Result D × List Request :=
  makeGETRequest http inst "/player/count" []

/-- Embeds `func GetPlayerList(instance) (*APIResponse, error)` -/
def GetPlayerList {D : Type} (http : Transport D) (inst : Instance) : Result D × List Request :=
  makeGETRequest http inst "/player/list" []

/-- Embeds `func GetBanList(instance) (*APIResponse, error)` -/
def GetBanList {D : Type} (http : Transport D) (inst : Instance) : Result D × List Request :=
  makeGETRequest http inst "/player/banlist" []

/-- Embeds `func GetVersion(instance) (*APIResponse, error)` -/
def GetVersion {D : Type} (http : Transport D) (inst : Instance) : Result D × List Request :=
  makeGETRequest http inst "/version" []

/-- Embeds `func GetHousingList(instance) (*APIResponse, error)` -/
def GetHousingList {D : Type} (http : Transport D) (inst : Instance) : Result D × List Request :=
  makeGETRequest http inst "/housing/list" []

/-- Embeds `func KickPlayer(instance, uniqueID string) (*APIResponse, error)` -/
def KickPlayer {D : Type} (http : Transport D) (inst : Instance) (uniqueID : String) :
    Result D × List Request :=
  if uniqueID = "" then
    ({ resp := none, err := some "unique_id cannot be empty" }, [])
  else
    let params : GoMap String := [("unique_id", uniqueID)]
    makePOSTRequest http inst "/player/kick" params

/-- The map `params` that `BanPlayer` fills before it calls `makePOSTRequest`. -/
def banParams (uniqueID : String) (hours : Int) (reason : String) : GoMap String :=
  let params : GoMap String := [("unique_id", uniqueID)]
  let params := if hours > 0 then GoMap.set params "hours" (Itoa hours) else params
  let params := if reason ≠ "" then GoMap.set params "reason" reason else params
  params

/-- Embeds `func BanPlayer(instance, uniqueID string, hours int, reason string)
(*APIResponse, error)` -/
def BanPlayer {D : Type} (http : Transport D) (inst : Instance) (uniqueID : String)
    (hours : Int) (reason : String) : Result D × List Request :=
  if uniqueID = "" then
    ({ resp := none, err := some "unique_id cannot be empty" }, [])
  else
    makePOSTRequest http inst "/player/ban" (banParams uniqueID hours reason)

/-- Embeds `func UnbanPlayer(instance, uniqueID string) (*APIResponse, error)` -/
def UnbanPlayer {D : Type} (http : Transport D) (inst : Instance) (uniqueID : String) :
    Result D × List Request :=
  if uniqueID = "" then
    ({ resp := none, err := some "unique_id cannot be empty" }, [])
  else
    let params : GoMap String := [("unique_id", uniqueID)]
    makePOSTRequest http inst "/player/unban" params

end api

/-! ## Go library functions used by the configuration wizard -/

/-- An ASCII decimal digit. -/
def isDigit (c : Char) : Bool := 48 ≤ c.toNat && c.toNat ≤ 57

/-- The value of a non-empty run of decimal digits read after `acc`;
`none` when a character is not a digit. -/
def parseDigits : List Char → Nat → Option Nat
  | [], acc => some acc
  | c :: cs, acc => if isDigit c then parseDigits cs (acc * 10 + (c.toNat - 48)) else none

/-- The integer a string denotes in base 10: an optional sign `+` or `-`
followed by at least one digit and nothing else. No bound on the value. -/
def decimalValue (s : String) : Option Int :=
  match s.data with
  | [] => none
  | c :: cs =>
    if c = '-' then
      (match cs with
       | [] => none
       | _ :: _ => (parseDigits cs 0).map (fun n => -(n : Int)))
    else if c = '+' then
      (match cs with
       | [] => none
       | _ :: _ => (parseDigits cs 0).map (fun n => (n : Int)))
    else (parseDigits (c :: cs) 0).map (fun n => (n : Int))

/-- Embeds `strconv.Atoi` on a 64-bit platform: the base-10 value, with a syntax
error for anything that is not a signed run of digits and a range error
outside of `[-2^63, 2^63 - 1]`; `none` stands for either error. -/
def Atoi (s : String) : Option Int :=
  match decimalValue s with
  | none => none
  | some v => if -9223372036854775808 ≤ v ∧ v ≤ 9223372036854775807 then some v else none

/-- Embeds `unicode.IsSpace`: the characters of the Unicode property White Space. -/
def isSpace (c : Char) : Bool :=
  let n := c.toNat
  (9 ≤ n && n ≤ 13) || n = 0x20 || n = 0x85 || n = 0xA0 || n = 0x1680
    || (0x2000 ≤ n && n ≤ 0x200A) || n = 0x2028 || n = 0x2029 || n = 0x202F
    || n = 0x205F || n = 0x3000

/-- Embeds `strings.TrimSpace`: leading and trailing white space removed. -/
def TrimSpace (s : String) : String :=
  String.mk ((s.data.dropWhile isSpace).reverse.dropWhile isSpace).reverse

/-- The pieces of a list of characters between the occurrences of `sep`. -/
def splitChars (sep : Char) : List Char → List (List Char)
  | [] => [[]]
  | c :: cs =>
    if c = sep then [] :: splitChars sep cs
    else
      match splitChars sep cs with
      | [] => [[c]]
      | p :: ps => (c :: p) :: ps

/-- Embeds `strings.Split(s, sep)` for a separator of one character. -/
def Split (s : String) (sep : Char) : List String :=
  (splitChars sep s.data).map String.mk

/-- The loop of `parseIPv4Fields` in `net/netip`: `prev` is the character
before the current one, `val` and `digLen` the value and the number of digits
of the field being read, `pos` the number of fields completed, kept in
`fields`. -/
def parseIPv4Fields :
    List Char → Option Char → Nat → Nat → Nat → List Nat → Option (List Nat)
  | [], _, val, pos, _, fields => if pos < 3 then none else some (fields ++ [val])
  | c :: rest, prev, val, pos, digLen, fields =>
    if isDigit c then
      if digLen = 1 ∧ val = 0 then none
      else
        let val := val * 10 + (c.toNat - 48)
        if val > 255 then none
        else parseIPv4Fields rest (some c) val pos (digLen + 1) fields
    else if c = '.' then
      if prev = none ∨ rest = [] ∨ prev = some '.' then none
      else if pos = 3 then none
      else parseIPv4Fields rest (some c) 0 (pos + 1) 0 (fields ++ [val])
    else none

/-- The function `parseIPv4` of `net/netip`: the four bytes of a dotted quad. -/
def parseIPv4 (s : String) : Option (List Nat) :=
  parseIPv4Fields s.data none 0 0 0 []

/-- The first of the characters `.`, `:` and `%` in a string, on which
`netip.ParseAddr` chooses the syntax to parse. -/
def firstMark : List Char → Option Char
  | [] => none
  | c :: cs => if c = '.' ∨ c = ':' ∨ c = '%' then some c else firstMark cs

/-- Embeds `net.ParseIP`: the 16 bytes of the address, an IPv4 address being stored
in its IPv4-mapped form. The IPv6 syntax is left to the parameter
`parseIPv6`. -/
def ParseIP (parseIPv6 : String → Option (List Nat)) (s : String) : Option (List Nat) :=
  match firstMark s.data with
  | none => none
  | some c =>
    if c = '.' then
      (parseIPv4 s).map (fun quad => [0, 0, 0, 0, 0, 0, 0, 0, 0, 0, 0xff, 0xff] ++ quad)
    else if c = ':' then parseIPv6 s
    else none

/-- Embeds `func (ip IP) To4() IP` -/
def To4 (ip : List Nat) : Option (List Nat) :=
  if ip.length = 4 then some ip
  else if ip.length = 16 ∧ ip.take 10 = List.replicate 10 0
      ∧ ip.getD 10 0 = 0xff ∧ ip.getD 11 0 = 0xff then some (ip.drop 12)
  else none

/-! ## `modules/commands/configure/configure.go` -/

namespace configure

/-- The `bufio.Scanner` over standard input: the lines not yet read. `Scan`
fails on the empty list. -/
abbrev Scanner := List String

/-- The loop `for i, part := range parts` of `validateIP`, from index `i`. -/
def validateIPParts : Nat → List String → Option String
  | _, [] => none
  | i, part :: rest =>
    match Atoi part with
    | none =>
      some ("IP part " ++ Itoa ((i : Int) + 1) ++ " is not a valid number: " ++ part)
    | some num =>
      if num < 0 ∨ num > 255 then
        some ("IP part " ++ Itoa ((i : Int) + 1) ++ " must be between 0 and 255, got: "
          ++ Itoa num)
      else validateIPParts (i + 1) rest

/-- Embeds `func validateIP(ip string) error`; `none` is the nil error. -/
def validateIP (parseIPv6 : String → Option (List Nat)) (ip : String) : Option String :=
  if ip = "" then some "IP cannot be empty"
  else
    match ParseIP parseIPv6 ip with
    | none => some "invalid IP address format"
    | some parsedIP =>
      match To4 parsedIP with
      | none => some "only IPv4 addresses are supported"
      | some _ =>
        let parts := Split ip '.'
        if parts.length ≠ 4 then some "IP address must have exactly 4 parts separated by dots"
        else validateIPParts 0 parts

/-- Embeds `func validatePort(portStr string) error` -/
def validatePort (portStr : String) : Option String :=
  if portStr = "" then some "port cannot be empty"
  else
    match Atoi portStr with
    | none => some ("port must be a number: " ++ portStr)
    | some port =>
      if port < 0 ∨ port > 65535 then
        some ("port must be between 0 and 65535, got: " ++ Itoa port)
      else none

/-- Embeds `func validatePassword(password string) error`; `len` counts bytes. -/
def validatePassword (password : String) : Option String :=
  if password = "" then some "password cannot be empty"
  else if password.utf8ByteSize > 72 then some "password cannot exceed 72 characters"
  else none

/-- The loop of `promptWithRetry` from attempt number `attempt`, with
`fuel = maxAttempts + 1 - attempt` iterations left before the loop condition
`attempt <= maxAttempts` fails. The result is the pair `(string, error)` and
the scanner after the lines read. -/
def promptWithRetryLoop (validator : String → Option String) (maxAttempts : Nat) :
    Nat → Nat → Scanner → (String × Option String) × Scanner
  | 0, _, scanner => (("", some "unexpected error in retry loop"), scanner)
  | fuel + 1, attempt, scanner =>
    match scanner with
    | [] => (("", some "failed to read input"), [])
    | line :: rest =>
      let input := TrimSpace line
      match validator input with
      | some _ =>
        if attempt < maxAttempts then
          promptWithRetryLoop validator maxAttempts fuel (attempt + 1) rest
        else
          (("", some ("maximum attempts reached (" ++ Itoa maxAttempts ++ "/"
            ++ Itoa maxAttempts ++ ")")), rest)
      | none => ((input, none), rest)

/-- Embeds `func promptWithRetry(scanner, prompt, validator) (string, error)`, with
`maxAttempts = 3`. The prompt is only printed. -/
def promptWithRetry (scanner : Scanner) (validator : String → Option String) :
    (String × Option String) × Scanner :=
  promptWithRetryLoop validator 3 3 1 scanner

/-- Embeds `func promptInstanceConfig(scanner) (types.Instance, error)`: the record
filled so far, the error, and the scanner after the lines read. -/
def promptInstanceConfig (parseIPv6 : String → Option (List Nat)) (scanner : Scanner) :
    (Instance × Option String) × Scanner :=
  let inst := Instance.zero
  match promptWithRetry scanner (validateIP parseIPv6) with
  | ((_, some err), scanner) => ((inst, some err), scanner)
  | ((ip, none), scanner) =>
    let inst := { inst with IP := ip }
    match promptWithRetry scanner validatePort with
    | ((_, some err), scanner) => ((inst, some err), scanner)
    | ((portStr, none), scanner) =>
      let port := (Atoi portStr).getD 0
      let inst := { inst with Port := port }
      match promptWithRetry scanner validatePassword with
      | ((_, some err), scanner) => ((inst, some err), scanner)
      | ((password, none), scanner) =>
        let inst := { inst with Password := password }
        ((inst, none), scanner)

end configure

/-! ## Go library functions used by the session -/

/-- The loop of `strings.Fields`: `cur` holds the characters of the field
being read, the last one first; a white space character closes the field. -/
def fieldsFrom : List Char → List Char → List String
  | cur, [] => if cur.isEmpty then [] else [String.mk cur.reverse]
  | cur, c :: cs =>
    if isSpace c then
      if cur.isEmpty then fieldsFrom [] cs else String.mk cur.reverse :: fieldsFrom [] cs
    else fieldsFrom (c :: cur) cs

/-- Embeds `strings.Fields`: the maximal runs of characters that are not white
space. -/
def Fields (s : String) : List String := fieldsFrom [] s.data

/-- Embeds `unicode.ToLower` on one character: the letters `A` to `Z` are
moved to `a` to `z`, the other characters below 128 are kept, and the
characters from 128 on are mapped by the case tables of the Unicode standard,
the parameter `lowerRune`. -/
def toLowerRune (lowerRune : Char → Char) (c : Char) : Char :=
  if c.toNat < 128 then
    if 65 ≤ c.toNat ∧ c.toNat ≤ 90 then Char.ofNat (c.toNat + 32) else c
  else lowerRune c

/-- Embeds `strings.ToLower`. -/
def ToLower (lowerRune : Char → Char) (s : String) : String :=
  String.mk (s.data.map (toLowerRune lowerRune))

/-- The loop of `strings.Join` after the first element. -/
def joinRest (sep : String) : List String → String
  | [] => ""
  | e :: es => sep ++ e ++ joinRest sep es

/-- Embeds `strings.Join(elems, sep)`. -/
def Join (elems : List String) (sep : String) : String :=
  match elems with
  | [] => ""
  | e :: es => e ++ joinRest sep es

/-- What `encoding/json` decodes into an `interface{}`: `nil`, a `bool`, a
`float64` (of type `F`), a `string`, a slice or a `map[string]interface{}`. -/
inductive JsonValue (F : Type) where
  | null
  | bool (b : Bool)
  | number (x : F)
  | string (s : String)
  | array (items : List (JsonValue F))
  | object (fields : List (String × JsonValue F))

/-- The type assertion `v.(map[string]interface{})`. -/
def JsonValue.asObject {F : Type} : JsonValue F → Option (GoMap (JsonValue F))
  | .object fields => some fields
  | _ => none

/-- How a call ends: it returns a value, or the program stops on a run-time
panic (a nil pointer, an index out of range). -/
inductive Run (α : Type) where
  | returned (a : α)
  | panicked
deriving DecidableEq, Repr

/-! ## `modules/commands/connect/connect.go`

What the handlers print is left out: they are given by the error they return
and by the requests they hand to the HTTP library. -/

namespace connect

/-- The end of every handler that only reports on the envelope: the error of
the call wrapped in `context`, or nil; the envelope is read on success, which
panics on a nil pointer. -/
def afterCall {F : Type} (context : String)
    (call : api.Result (JsonValue F) × List api.Request) :
    Run (Option String) × List api.Request :=
  match call.1.err with
  | some err => (Run.returned (some (context ++ ": " ++ err)), call.2)
  | none =>
    match call.1.resp with
    | none => (Run.panicked, call.2)
    | some _ => (Run.returned none, call.2)

/-- Embeds `func handleChatCommand(parts []string, instance types.Instance) error` -/
def handleChatCommand {F : Type} (http : api.Transport (JsonValue F)) (parts : List String)
    (inst : Instance) : Run (Option String) × List api.Request :=
  if parts.length < 2 then (Run.returned (some "usage: chat <message>"), [])
  else
    let message := Join (parts.drop 1) " "
    afterCall "failed to send chat message" (api.SendChatMessage http inst message)

/-- Embeds `func handlePlayerListCommand(instance types.Instance) error`: every
shape of `response.Data` ends in `return nil`. -/
def handlePlayerListCommand {F : Type} (http : api.Transport (JsonValue F)) (inst : Instance) :
    Run (Option String) × List api.Request :=
  afterCall "failed to get player list" (api.GetPlayerList http inst)

/-- Embeds `func handlePlayerCountCommand(instance types.Instance) error` -/
def handlePlayerCountCommand {F : Type} (http : api.Transport (JsonValue F)) (inst : Instance) :
    Run (Option String) × List api.Request :=
  let call := api.GetPlayerCount http inst
  match call.1.err with
  | some err => (Run.returned (some ("failed to get player count: " ++ err)), call.2)
  | none =>
    match call.1.resp with
    | none => (Run.panicked, call.2)
    | some response =>
      match response.Data.asObject with
      | none => (Run.returned (some "unexpected response format"), call.2)
      | some data =>
        match GoMap.get data "num_players" with
        | some (JsonValue.number _) => (Run.returned none, call.2)
        | _ => (Run.returned (some "unexpected player count format"), call.2)

/-- Embeds `func handleBanListCommand(instance types.Instance) error`: every
shape of `response.Data` ends in `return nil`. -/
def handleBanListCommand {F : Type} (http : api.Transport (JsonValue F)) (inst : Instance) :
    Run (Option String) × List api.Request :=
  afterCall "failed to get ban list" (api.GetBanList http inst)

/-- Embeds `func handleKickCommand(parts []string, instance types.Instance) error` -/
def handleKickCommand {F : Type} (http : api.Transport (JsonValue F)) (parts : List String)
    (inst : Instance) : Run (Option String) × List api.Request :=
  if parts.length < 2 then (Run.returned (some "usage: kick <unique_id>"), [])
  else
    let uniqueID := parts.getD 1 ""
    afterCall "failed to kick player" (api.KickPlayer http inst uniqueID)

/-- Embeds `func handleBanCommand(parts []string, instance types.Instance) error` -/
def handleBanCommand {F : Type} (http : api.Transport (JsonValue F)) (parts : List String)
    (inst : Instance) : Run (Option String) × List api.Request :=
  if parts.length < 2 then
    (Run.returned (some "usage: ban <unique_id> [hours] [reason]"), [])
  else
    let uniqueID := parts.getD 1 ""
    let hours : Int :=
      if parts.length > 2 then
        (match Atoi (parts.getD 2 "") with
         | some h => h
         | none => 0)
      else 0
    let reason := if parts.length > 3 then Join (parts.drop 3) " " else ""
    afterCall "failed to ban player" (api.BanPlayer http inst uniqueID hours reason)

/-- Embeds `func handleUnbanCommand(parts []string, instance types.Instance) error` -/
def handleUnbanCommand {F : Type} (http : api.Transport (JsonValue F)) (parts : List String)
    (inst : Instance) : Run (Option String) × List api.Request :=
  if parts.length < 2 then (Run.returned (some "usage: unban <unique_id>"), [])
  else
    let uniqueID := parts.getD 1 ""
    afterCall "failed to unban player" (api.UnbanPlayer http inst uniqueID)

/-- Embeds `func handleVersionCommand(instance types.Instance) error` -/
def handleVersionCommand {F : Type} (http : api.Transport (JsonValue F)) (inst : Instance) :
    Run (Option String) × List api.Request :=
  let call := api.GetVersion http inst
  match call.1.err with
  | some err => (Run.returned (some ("failed to get version: " ++ err)), call.2)
  | none =>
    match call.1.resp with
    | none => (Run.panicked, call.2)
    | some response =>
      match response.Data.asObject with
      | none => (Run.returned (some "unexpected response format"), call.2)
      | some data =>
        match GoMap.get data "version" with
        | some (JsonValue.string _) => (Run.returned none, call.2)
        | _ => (Run.returned (some "unexpected version format"), call.2)

/-- Embeds `func handleHousingCommand(instance types.Instance) error`: every
shape of `response.Data` ends in `return nil`. -/
def handleHousingCommand {F : Type} (http : api.Transport (JsonValue F)) (inst : Instance) :
    Run (Option String) × List api.Request :=
  afterCall "failed to get housing list" (api.GetHousingList http inst)

/-- The state of the session: bound to an instance and reading commands,
ended by `return nil`, or stopped by a panic. -/
inductive Session where
  | connected (inst : Instance) (instanceName : String)
  | terminated
  | crashed
deriving DecidableEq, Repr

/-- The `switch command` of `startShell`: the handler of the command word;
`none` for the words `exit`, `quit` and `disconnect`, on which the function
returns. The error of a handler is printed and dropped. -/
def dispatch {F : Type} (http : api.Transport (JsonValue F)) (command : String)
    (parts : List String) (inst : Instance) :
    Option (Run (Option String) × List api.Request) :=
  if command = "exit" ∨ command = "quit" ∨ command = "disconnect" then none
  else if command = "help" then some (Run.returned none, [])
  else if command = "chat" then some (handleChatCommand http parts inst)
  else if command = "players" ∨ command = "playerlist" then
    some (handlePlayerListCommand http inst)
  else if command = "count" ∨ command = "playercount" then
    some (handlePlayerCountCommand http inst)
  else if command = "banlist" then some (handleBanListCommand http inst)
  else if command = "kick" then some (handleKickCommand http parts inst)
  else if command = "ban" then some (handleBanCommand http parts inst)
  else if command = "unban" then some (handleUnbanCommand http parts inst)
  else if command = "version" then some (handleVersionCommand http inst)
  else if command = "housing" then some (handleHousingCommand http inst)
  else some (Run.returned none, [])

/-- One turn of the loop of `startShell` in the state `connected`: `scanned`
is the line read by `scanner.Scan()`, or `none` when there is no more input.
The result is the next state and the requests handed to the HTTP library. -/
def shellStep {F : Type} (lowerRune : Char → Char) (http : api.Transport (JsonValue F))
    (inst : Instance) (instanceName : String) (scanned : Option String) :
    Session × List api.Request :=
  match scanned with
  | none => (Session.terminated, [])
  | some line =>
    let input := TrimSpace line
    if input = "" then (Session.connected inst instanceName, [])
    else
      let parts := Fields input
      match parts with
      | [] => (Session.crashed, [])
      | first :: _ =>
        let command := ToLower lowerRune first
        match dispatch http command parts inst with
        | none => (Session.terminated, [])
        | some (Run.panicked, log) => (Session.crashed, log)
        | some (Run.returned _, log) => (Session.connected inst instanceName, log)

/-- Embeds `func startShell(scanner, instance, instanceName) error`: the turns
of the loop over the lines of the input, `http n` being the network at the
time of the line number `n`. The result is how the function ends, the lines
left unread and the requests handed to the HTTP library. -/
def startShell {F : Type} (lowerRune : Char → Char) (http : Nat → api.Transport (JsonValue F))
    (inst : Instance) (instanceName : String) :
    List String → Run (Option String) × List String × List api.Request
  | [] => (Run.returned none, [], [])
  | line :: rest =>
    match shellStep lowerRune (http 0) inst instanceName (some line) with
    | (Session.terminated, log) => (Run.returned none, rest, log)
    | (Session.crashed, log) => (Run.panicked, rest, log)
    | (Session.connected inst instanceName, log) =>
      let later := startShell lowerRune (fun n => http (n + 1)) inst instanceName rest
      (later.1, later.2.1, log ++ later.2.2)

end connect

/-! ## `modules/commands/configure/configure.go`, the wizard -/

namespace configure

/-- Embeds `func maskPassword(password string) string`. Both `len` and the
slice `password[:2]` count bytes, so the result can end in the middle of a
character; it is given as the bytes of the Go string, `42` being `*`. -/
def maskPassword (password : String) : List Nat :=
  if password.utf8ByteSize ≤ 3 then
    List.replicate password.utf8ByteSize 42
  else
    (goBytes password).take 2 ++ List.replicate (password.utf8ByteSize - 2) 42

/-- A character of the class `[a-z0-9_-]`. -/
def nameChar (c : Char) : Bool :=
  (97 ≤ c.toNat && c.toNat ≤ 122) || (48 ≤ c.toNat && c.toNat ≤ 57) || c.toNat = 95
    || c.toNat = 45

/-- The match of the regular expression `^[a-z0-9_-]+$` on a string: one or
more characters, all of the class, from the start of the text to its end. -/
def validNameMatchString (name : String) : Bool :=
  !name.data.isEmpty && name.data.all nameChar

/-- Embeds `func validateInstanceName(name string) error`; `len` counts bytes. -/
def validateInstanceName (name : String) : Option String :=
  if name = "" then some "instance name cannot be empty"
  else if name.utf8ByteSize > 72 then some "instance name cannot exceed 72 characters"
  else if !validNameMatchString name then
    some ("instance name can only contain lowercase letters (a-z), numbers (0-9), "
      ++ "hyphens (-), and underscores (_)")
  else none

/-- The loop of `promptWithDefaults` from attempt number `attempt`, with
`fuel = maxAttempts + 1 - attempt` iterations left; an empty line stands for
`defaultValue`. -/
def promptWithDefaultsLoop (defaultValue : String) (validator : String → Option String)
    (maxAttempts : Nat) : Nat → Nat → Scanner → (String × Option String) × Scanner
  | 0, _, scanner => (("", some "unexpected error in retry loop"), scanner)
  | fuel + 1, attempt, scanner =>
    match scanner with
    | [] => (("", some "failed to read input"), [])
    | line :: rest =>
      let input := TrimSpace line
      let input := if input = "" then defaultValue else input
      match validator input with
      | some _ =>
        if attempt < maxAttempts then
          promptWithDefaultsLoop defaultValue validator maxAttempts fuel (attempt + 1) rest
        else
          (("", some ("maximum attempts reached (" ++ Itoa maxAttempts ++ "/"
            ++ Itoa maxAttempts ++ ")")), rest)
      | none => ((input, none), rest)

/-- Embeds `func promptWithDefaults(scanner, prompt, defaultValue, validator)
(string, error)`, with `maxAttempts = 3`. -/
def promptWithDefaults (scanner : Scanner) (defaultValue : String)
    (validator : String → Option String) : (String × Option String) × Scanner :=
  promptWithDefaultsLoop defaultValue validator 3 3 1 scanner

/-- Embeds `func promptInstanceConfigWithDefaults(scanner, existing)
(types.Instance, error)`. -/
def promptInstanceConfigWithDefaults (parseIPv6 : String → Option (List Nat))
    (scanner : Scanner) (existing : Instance) : (Instance × Option String) × Scanner :=
  let inst := Instance.zero
  match promptWithDefaults scanner existing.IP (validateIP parseIPv6) with
  | ((_, some err), scanner) => ((inst, some err), scanner)
  | ((ip, none), scanner) =>
    let inst := { inst with IP := ip }
    match promptWithDefaults scanner (Itoa existing.Port) validatePort with
    | ((_, some err), scanner) => ((inst, some err), scanner)
    | ((portStr, none), scanner) =>
      let port := (Atoi portStr).getD 0
      let inst := { inst with Port := port }
      match promptWithDefaults scanner existing.Password validatePassword with
      | ((_, some err), scanner) => ((inst, some err), scanner)
      | ((password, none), scanner) =>
        let inst := { inst with Password := password }
        ((inst, none), scanner)

/-- Embeds `func addInstance(scanner, cfg) error`: the error, the registry
after the call and the scanner after the lines read. -/
def addInstance (parseIPv6 : String → Option (List Nat)) (scanner : Scanner)
    (cfg : config.Config) : Option String × config.Config × Scanner :=
  match promptWithRetry scanner validateInstanceName with
  | ((_, some err), scanner) => (some err, cfg, scanner)
  | ((instanceName, none), scanner) =>
    if (config.GetInstance cfg instanceName).2 then
      (some ("instance '" ++ instanceName ++ "' already exists"), cfg, scanner)
    else
      match promptInstanceConfig parseIPv6 scanner with
      | ((_, some err), scanner) => (some err, cfg, scanner)
      | ((inst, none), scanner) => (none, config.AddInstance cfg instanceName inst, scanner)

/-- Embeds `func editInstance(scanner, cfg) error`: how the call ends, the
registry after the call and the scanner after the lines read. The index
expression `instances[choice-1]` panics outside of the slice. -/
def editInstance (parseIPv6 : String → Option (List Nat)) (scanner : Scanner)
    (cfg : config.Config) : Run (Option String) × config.Config × Scanner :=
  let instances := sortKeys (config.ListInstances cfg)
  match scanner with
  | [] => (Run.returned (some "failed to read input"), cfg, [])
  | line :: scanner =>
    let choiceStr := TrimSpace line
    match Atoi choiceStr with
    | none => (Run.returned (some ("invalid choice: " ++ choiceStr)), cfg, scanner)
    | some choice =>
      if choice < 1 ∨ choice > instances.length then
        (Run.returned (some ("invalid choice: " ++ choiceStr)), cfg, scanner)
      else
        match instances[(choice - 1).toNat]? with
        | none => (Run.panicked, cfg, scanner)
        | some instanceName =>
          let existing := (config.GetInstance cfg instanceName).1
          match promptInstanceConfigWithDefaults parseIPv6 scanner existing with
          | ((_, some err), scanner) => (Run.returned (some err), cfg, scanner)
          | ((newInstance, none), scanner) =>
            (Run.returned none, config.AddInstance cfg instanceName newInstance, scanner)

/-- Embeds `func deleteInstance(scanner, cfg) error`: how the call ends, the
registry after the call and the scanner after the lines read. -/
def deleteInstance (lowerRune : Char → Char) (scanner : Scanner) (cfg : config.Config) :
    Run (Option String) × config.Config × Scanner :=
  let instances := sortKeys (config.ListInstances cfg)
  match scanner with
  | [] => (Run.returned (some "failed to read input"), cfg, [])
  | line :: scanner =>
    let choiceStr := TrimSpace line
    match Atoi choiceStr with
    | none => (Run.returned (some ("invalid choice: " ++ choiceStr)), cfg, scanner)
    | some choice =>
      if choice < 1 ∨ choice > instances.length then
        (Run.returned (some ("invalid choice: " ++ choiceStr)), cfg, scanner)
      else
        match instances[(choice - 1).toNat]? with
        | none => (Run.panicked, cfg, scanner)
        | some instanceName =>
          match scanner with
          | [] => (Run.returned (some "failed to read confirmation"), cfg, [])
          | answer :: scanner =>
            let confirmation := ToLower lowerRune (TrimSpace answer)
            if confirmation ≠ "y" ∧ confirmation ≠ "yes" then
              (Run.returned none, cfg, scanner)
            else
              match config.DeleteInstance cfg instanceName with
              | (cfg, true) => (Run.returned none, cfg, scanner)
              | (cfg, false) =>
                (Run.returned (some ("failed to delete instance '" ++ instanceName ++ "'")),
                  cfg, scanner)

end configure

/-! ## Definitions used to state and to instantiate the theorems -/

namespace api

/-- An instance used to instantiate the theorems. -/
def sampleInstance : Instance := { IP := "10.0.0.5", Port := 8080, Password := "s3cret" }

/-- A network on which every request is answered by the given status and
envelope. -/
def answering (status : Int) (message : String) (succeeded : Bool) : Transport Unit :=
  fun _ => Reply.decoded status { Data := (), Message := message, Succeeded := succeeded }

end api

/-- The request of the wire protocol: the verb, and the URL
`http://{address}:{port}{path}?{query}`. -/
def api.wireRequest (inst : Instance) (verb path query : String) : api.Request :=
  { method := verb
    url := "http://" ++ inst.IP ++ ":" ++ Itoa inst.Port ++ path ++ "?" ++ query }

namespace configure

/-- A secret of 72 characters, each of two bytes. -/
def secret72 : String := String.mk (List.replicate 72 'é')

/-- A parser of the IPv6 syntax that accepts nothing. -/
def noIPv6 : String → Option (List Nat) := fun _ => none

end configure

namespace connect

/-- The hours of a ban as the spec words them, from the fields after the
unique ID: the integer value of the first of them when there is one and it
reads as an integer, and 0 otherwise. -/
def banHours : List String → Int
  | [] => 0
  | field3 :: _ =>
    match Atoi field3 with
    | some h => h
    | none => 0

/-- The reason of a ban as the spec words it, from the fields after the
unique ID: the fields after the first of them, joined by single spaces. -/
def banReason : List String → String
  | [] => ""
  | _ :: later => Join later " "

/-- A network on which no request gets through. -/
def offline : api.Transport (JsonValue Nat) := fun _ => api.Reply.sendFailed "timeout"

/-- A network on which every request is answered by status 200 and a
successful envelope without data. -/
def accepting : api.Transport (JsonValue Nat) :=
  fun _ => api.Reply.decoded 200 { Data := JsonValue.null, Message := "done", Succeeded := true }

end connect

namespace configure

/-- The line that the spec says `promptWithRetry` returns: the first of the
first three lines, white space trimmed, that the validator accepts. -/
def firstAccepted (validator : String → Option String) (scanner : Scanner) : Option String :=
  ((scanner.take 3).map TrimSpace).find? (fun l => (validator l).isNone)

/-- A well-formed record: the address is accepted by `validateIP`, the port
lies between 0 and 65535, the secret is accepted by `validatePassword`. -/
def WellFormedRecord (parseIPv6 : String → Option (List Nat)) (inst : Instance) : Prop :=
  validateIP parseIPv6 inst.IP = none ∧ 0 ≤ inst.Port ∧ inst.Port ≤ 65535 ∧
    validatePassword inst.Password = none

/-- A registry whose entries are all well-formed: every name it holds is
accepted by `validateInstanceName` and is bound to a well-formed record. -/
def WellFormedRegistry (parseIPv6 : String → Option (List Nat)) (cfg : config.Config) : Prop :=
  ∀ name : String, (config.GetInstance cfg name).2 = true →
    validateInstanceName name = none ∧
      WellFormedRecord parseIPv6 (config.GetInstance cfg name).1

end configure

/-- A registry holding the one instance `main`. -/
def config.sampleConfig : config.Config :=
  { Instances := some [("main", api.sampleInstance)] }

/-! ## Lemmas on Go maps -/

namespace GoMap

theorem get_delete_same {α : Type} (m : GoMap α) (k : String) :
    get (delete m k) k = none := by
  induction m with
  | nil => rfl
  | cons kv rest ih =>
    obtain ⟨k', v⟩ := kv
    by_cases h : k' = k
    · simpa [delete, h] using ih
    · simpa [delete, get, h] using ih

theorem get_delete_other {α : Type} (m : GoMap α) (k j : String) (hj : j ≠ k) :
    get (delete m k) j = get m j := by
  induction m with
  | nil => rfl
  | cons kv rest ih =>
    obtain ⟨k', v⟩ := kv
    by_cases h : k' = k
    · have hne : ¬ k' = j := fun e => hj (e ▸ h)
      simpa [delete, get, h, hne, hj.symm] using ih
    · by_cases h2 : k' = j
      · subst h2
        simp [delete, get, h]
      · simpa [delete, get, h, h2] using ih

theorem keys_delete {α : Type} (m : GoMap α) (k : String) :
    keys (delete m k) = (keys m).filter (fun j => !decide (j = k)) := by
  induction m with
  | nil => rfl
  | cons kv rest ih =>
    obtain ⟨k', v⟩ := kv
    by_cases h : k' = k
    · simpa [delete, keys, h] using ih
    · simpa [delete, keys, h] using ih

theorem get_set_same {α : Type} (m : GoMap α) (k : String) (v : α) :
    get (set m k v) k = some v := by
  induction m with
  | nil => simp [set, get]
  | cons kv rest ih =>
    obtain ⟨k', v'⟩ := kv
    by_cases h : k' = k
    · simp [set, get, h]
    · simpa [set, get, h] using ih

theorem get_set_other {α : Type} (m : GoMap α) (k j : String) (v : α) (hj : j ≠ k) :
    get (set m k v) j = get m j := by
  induction m with
  | nil => simp [set, get, hj.symm]
  | cons kv rest ih =>
    obtain ⟨k', v'⟩ := kv
    by_cases h : k' = k
    · subst h
      simp [set, get, hj.symm, get_delete_other rest k' j hj]
    · by_cases h2 : k' = j
      · subst h2
        simp [set, get, h]
      · simpa [set, get, h, h2] using ih

end GoMap

/-! ## Theorems: the registry -/

/-- C1: `DeleteInstance` returns true exactly when the name was present
(found by `GetInstance`) before the call; on an absent name the registry is
returned unchanged; on a present name the name is no longer found afterwards,
every other name is looked up to the same result as before, and the names
listed are the former ones without the deleted name. -/
theorem DeleteInstance_spec (c : config.Config) (name : String) :
    ((config.DeleteInstance c name).2 = true ↔ (config.GetInstance c name).2 = true) ∧
    ((config.GetInstance c name).2 = false → (config.DeleteInstance c name).1 = c) ∧
    ((config.GetInstance c name).2 = true →
      (config.GetInstance (config.DeleteInstance c name).1 name).2 = false ∧
      (∀ other : String, other ≠ name →
        config.GetInstance (config.DeleteInstance c name).1 other
          = config.GetInstance c other) ∧
      config.ListInstances (config.DeleteInstance c name).1
        = (config.ListInstances c).filter (fun k => !decide (k = name))) := by
  obtain ⟨m⟩ := c
  cases m with
  | none => simp [config.DeleteInstance, config.GetInstance]
  | some m =>
    cases hget : GoMap.get m name with
    | none => simp [config.DeleteInstance, config.GetInstance, hget]
    | some inst =>
      refine ⟨by simp [config.DeleteInstance, config.GetInstance, hget],
        by simp [config.GetInstance, hget], fun _ => ⟨?_, ?_, ?_⟩⟩
      · simp [config.DeleteInstance, config.GetInstance, hget, GoMap.get_delete_same]
      · intro other hne
        simp [config.DeleteInstance, config.GetInstance, hget,
          GoMap.get_delete_other m name other hne]
      · simp [config.DeleteInstance, config.ListInstances, hget, GoMap.keys_delete]

/-- Witness of C1: deleting `main` from the registry that holds only `main`
returns true and leaves a registry in which `main` is not found. -/
theorem DeleteInstance_spec_witness :
    (config.GetInstance config.sampleConfig "main").2 = true ∧
    (config.DeleteInstance config.sampleConfig "main").2 = true ∧
    (config.GetInstance (config.DeleteInstance config.sampleConfig "main").1 "main").2
      = false :=
  ⟨by decide, (DeleteInstance_spec config.sampleConfig "main").1.mpr (by decide),
   ((DeleteInstance_spec config.sampleConfig "main").2.2 (by decide)).1⟩

/-- C2: for every registry (the nil map included), name and record,
`GetInstance` after `AddInstance` of that name returns exactly the record
just stored, with the found flag true. -/
theorem GetInstance_AddInstance (c : config.Config) (name : String) (inst : Instance) :
    config.GetInstance (config.AddInstance c name inst) name = (inst, true) := by
  simp [config.AddInstance, config.GetInstance, GoMap.get_set_same]

/-! ## Theorems: the request helpers -/

namespace api

theorem makeGETRequest_log {D : Type} (http : Transport D) (inst : Instance)
    (endpoint : String) (extra : GoMap String) :
    (makeGETRequest http inst endpoint extra).2
      = [{ method := "GET", url := fullURL inst endpoint extra }] := by
  unfold makeGETRequest
  cases h : http { method := "GET", url := fullURL inst endpoint extra } with
  | decoded status body => simp only [h]; split_ifs <;> rfl
  | _ => simp only [h]

theorem makePOSTRequest_log {D : Type} (http : Transport D) (inst : Instance)
    (endpoint : String) (extra : GoMap String) :
    (makePOSTRequest http inst endpoint extra).2
      = [{ method := "POST", url := fullURL inst endpoint extra }] := by
  unfold makePOSTRequest
  cases h : http { method := "POST", url := fullURL inst endpoint extra } with
  | decoded status body => simp only [h]; split_ifs <;> rfl
  | _ => simp only [h]

end api

/-! ### The query string -/

theorem utf8ByteSize_append (a b : String) :
    (a ++ b).utf8ByteSize = a.utf8ByteSize + b.utf8ByteSize := by
  cases a; cases b
  show String.utf8Len (_ ++ _) = _
  simp [String.utf8Len_append]

theorem appendPair_empty (k v : String) :
    appendPair "" k v = QueryEscape k ++ "=" ++ QueryEscape v := by
  have h0 : ("" : String).utf8ByteSize = 0 := by decide
  simp [appendPair, h0]

theorem appendPair_size_pos (buf k v : String) : 0 < (appendPair buf k v).utf8ByteSize := by
  have h1 : ("=" : String).utf8ByteSize = 1 := by decide
  unfold appendPair
  rw [utf8ByteSize_append, utf8ByteSize_append, h1]
  omega

theorem appendPair_of_pos (buf k v : String) (h : 0 < buf.utf8ByteSize) :
    appendPair buf k v = buf ++ "&" ++ QueryEscape k ++ "=" ++ QueryEscape v := by
  simp [appendPair, h]

/-- The keys the client uses are left as they are by `QueryEscape`. -/
theorem QueryEscape_keys :
    QueryEscape "password" = "password" ∧ QueryEscape "unique_id" = "unique_id" ∧
    QueryEscape "message" = "message" ∧ QueryEscape "hours" = "hours" ∧
    QueryEscape "reason" = "reason" := by decide

/-- The order of the keys the client uses:
`hours < message < password < reason < unique_id`. -/
theorem keyOrder :
    bytesLess (goBytes "hours") (goBytes "password") = true ∧
    bytesLess (goBytes "hours") (goBytes "unique_id") = true ∧
    bytesLess (goBytes "hours") (goBytes "reason") = true ∧
    bytesLess (goBytes "message") (goBytes "password") = true ∧
    bytesLess (goBytes "password") (goBytes "reason") = true ∧
    bytesLess (goBytes "password") (goBytes "unique_id") = true ∧
    bytesLess (goBytes "reason") (goBytes "unique_id") = true ∧
    bytesLess (goBytes "reason") (goBytes "password") = false ∧
    bytesLess (goBytes "unique_id") (goBytes "password") = false ∧
    bytesLess (goBytes "unique_id") (goBytes "reason") = false ∧
    bytesLess (goBytes "reason") (goBytes "hours") = false ∧
    bytesLess (goBytes "unique_id") (goBytes "hours") = false ∧
    bytesLess (goBytes "password") (goBytes "hours") = false ∧
    bytesLess (goBytes "password") (goBytes "message") = false := by decide

/-! ### Decimal digits -/

theorem digitChar_spec (m : Nat) (hm : m < 10) :
    isDigit (Nat.digitChar m) = true ∧ (Nat.digitChar m).toNat - 48 = m := by
  interval_cases m <;> decide

theorem parseDigits_append (xs ys : List Char) :
    ∀ acc : Nat, parseDigits (xs ++ ys) acc = (parseDigits xs acc).bind (parseDigits ys) := by
  induction xs with
  | nil => intro acc; simp [parseDigits]
  | cons c cs ih =>
    intro acc
    by_cases hc : isDigit c = true
    · simp [parseDigits, hc, ih]
    · simp [parseDigits, hc]

/-- The digits `Nat.toDigitsCore` puts before its accumulator, given enough
fuel: a non-empty run of decimal digits that reads back as the number. -/
theorem toDigitsCore_reads_back (fuel : Nat) :
    ∀ (n : Nat) (ds : List Char), n < fuel →
      ∃ xs : List Char, Nat.toDigitsCore 10 fuel n ds = xs ++ ds ∧ xs ≠ [] ∧
        (∀ c ∈ xs, isDigit c = true) ∧ parseDigits xs 0 = some n := by
  induction fuel with
  | zero => intro n ds h; omega
  | succ fuel ih =>
    intro n ds hn
    obtain ⟨hd, hv⟩ := digitChar_spec (n % 10) (Nat.mod_lt _ (by decide))
    by_cases hq : n / 10 = 0
    · refine ⟨[Nat.digitChar (n % 10)], by simp [Nat.toDigitsCore, hq], by simp, ?_, ?_⟩
      · intro c hc
        rw [List.mem_singleton.mp hc]
        exact hd
      · have hlt : n < 10 := by omega
        simp only [parseDigits, hd, hv, if_true]
        simp [Nat.mod_eq_of_lt hlt]
    · obtain ⟨xs, hxs, hne, hdig, hval⟩ :=
        ih (n / 10) (Nat.digitChar (n % 10) :: ds) (by omega)
      refine ⟨xs ++ [Nat.digitChar (n % 10)], by simp [Nat.toDigitsCore, hq, hxs], by simp,
        ?_, ?_⟩
      · intro c hc
        rcases List.mem_append.mp hc with h | h
        · exact hdig c h
        · rw [List.mem_singleton.mp h]
          exact hd
      · rw [parseDigits_append, hval]
        simp [parseDigits, hd, hv]
        omega

/-- The decimal digits of a natural number read back as the number. -/
theorem repr_reads_back (n : Nat) :
    ∃ c cs, (Nat.repr n).data = c :: cs ∧ (∀ x ∈ c :: cs, isDigit x = true) ∧
      parseDigits (c :: cs) 0 = some n := by
  obtain ⟨xs, hxs, hne, hdig, hval⟩ := toDigitsCore_reads_back (n + 1) n [] (by omega)
  have hdata : (Nat.repr n).data = xs := by
    simp [Nat.repr, Nat.toDigits, hxs, List.asString]
  cases xs with
  | nil => exact absurd rfl hne
  | cons c cs => exact ⟨c, cs, hdata, hdig, hval⟩

/-- The text `Itoa` prints for an integer denotes that integer. -/
theorem decimalValue_Itoa (v : Int) : decimalValue (Itoa v) = some v := by
  cases v with
  | ofNat n =>
    obtain ⟨c, cs, hdata, hall, hval⟩ := repr_reads_back n
    have hc := hall c (List.mem_cons_self _ _)
    have h1 : c ≠ '-' := by rintro rfl; exact absurd hc (by decide)
    have h2 : c ≠ '+' := by rintro rfl; exact absurd hc (by decide)
    simp [decimalValue, Itoa, hdata, h1, h2, hval]
  | negSucc n =>
    obtain ⟨c, cs, hdata, _, hval⟩ := repr_reads_back (n + 1)
    have hd : (Itoa (Int.negSucc n)).data = '-' :: c :: cs := by
      simp [Itoa, String.data_append, hdata]
    unfold decimalValue
    rw [hd]
    simp [hval, Int.negSucc_eq]

/-- On the range of an `int`, `Atoi` reads back what `Itoa` prints. -/
theorem Atoi_Itoa (v : Int) (hlo : -9223372036854775808 ≤ v) (hhi : v ≤ 9223372036854775807) :
    Atoi (Itoa v) = some v := by
  simp [Atoi, decimalValue_Itoa, hlo, hhi]

/-- A decimal digit is one byte, which `QueryEscape` leaves as it is. -/
theorem escape_digit (c : Char) (hc : isDigit c = true) :
    (utf8Bytes c).flatMap escapeByte = [c] := by
  have h : 48 ≤ c.toNat ∧ c.toNat ≤ 57 := by simpa [isDigit] using hc
  have h1 : c.toNat < 128 := by omega
  have h2 : c.toNat ≠ 32 := by omega
  have h3 : shouldEscape c.toNat = false := by
    simp only [shouldEscape, Bool.not_eq_false', Bool.or_eq_true, Bool.and_eq_true,
      decide_eq_true_eq]
    omega
  simp [utf8Bytes, h1, escapeByte, h2, h3, Char.ofNat_toNat]

theorem escape_digits (cs : List Char) (h : ∀ c ∈ cs, isDigit c = true) :
    (cs.flatMap utf8Bytes).flatMap escapeByte = cs := by
  induction cs with
  | nil => rfl
  | cons c rest ih =>
    have hc := escape_digit c (h c (List.mem_cons_self _ _))
    have hr := ih (fun x hx => h x (List.mem_cons_of_mem _ hx))
    simp only [List.flatMap_cons, List.flatMap_append, hc, hr]
    rfl

/-- The digits of a number that is not negative go through `QueryEscape`
unchanged. -/
theorem QueryEscape_Itoa (v : Int) (hv : 0 ≤ v) : QueryEscape (Itoa v) = Itoa v := by
  cases v with
  | ofNat n =>
    obtain ⟨c, cs, hdata, hall, _⟩ := repr_reads_back n
    apply String.ext
    simp only [QueryEscape, goBytes, Itoa, hdata]
    exact escape_digits _ hall
  | negSucc n => exact absurd hv (by simp [Int.negSucc_lt_zero])

namespace api

/-- The query of a call without extra parameter. -/
theorem encode_noExtra (inst : Instance) :
    Values.Encode (buildParams inst []) = "password=" ++ QueryEscape inst.Password := by
  have h : Values.Encode (buildParams inst []) = appendPair "" "password" inst.Password := by
    simp [Values.Encode, buildParams, Values.Set, GoMap.set, GoMap.keys, sortKeys, insertKey,
      GoMap.get]
  rw [h, appendPair_empty, QueryEscape_keys.1]
  rfl

/-- The query of a call with the one extra parameter `unique_id`. -/
theorem encode_uniqueID (inst : Instance) (u : String) :
    Values.Encode (buildParams inst [("unique_id", u)])
      = "password=" ++ QueryEscape inst.Password ++ "&unique_id=" ++ QueryEscape u := by
  have h : Values.Encode (buildParams inst [("unique_id", u)])
      = appendPair (appendPair "" "password" inst.Password) "unique_id" u := by
    simp [Values.Encode, buildParams, Values.Set, GoMap.set, GoMap.keys, sortKeys, insertKey,
      GoMap.get, keyOrder]
  rw [h, appendPair_of_pos _ _ _ (appendPair_size_pos _ _ _), appendPair_empty,
    QueryEscape_keys.1, QueryEscape_keys.2.1]
  apply String.ext
  simp [String.data_append]

/-- The query of the chat call. -/
theorem encode_message (inst : Instance) (m : String) :
    Values.Encode (buildParams inst [("message", m)])
      = "message=" ++ QueryEscape m ++ "&password=" ++ QueryEscape inst.Password := by
  have h : Values.Encode (buildParams inst [("message", m)])
      = appendPair (appendPair "" "message" m) "password" inst.Password := by
    simp [Values.Encode, buildParams, Values.Set, GoMap.set, GoMap.keys, sortKeys, insertKey,
      GoMap.get, keyOrder]
  rw [h, appendPair_of_pos _ _ _ (appendPair_size_pos _ _ _), appendPair_empty,
    QueryEscape_keys.1, QueryEscape_keys.2.2.1]
  apply String.ext
  simp [String.data_append]

/-- The query of the ban call. -/
theorem encode_ban (inst : Instance) (u : String) (h : Int) (r : String) :
    Values.Encode (buildParams inst (banParams u h r))
      = (if 0 < h then "hours=" ++ QueryEscape (Itoa h) ++ "&" else "")
        ++ ("password=" ++ QueryEscape inst.Password)
        ++ (if r = "" then "" else "&reason=" ++ QueryEscape r)
        ++ ("&unique_id=" ++ QueryEscape u) := by
  have key : Values.Encode (buildParams inst (banParams u h r))
      = appendPair
          ((fun b1 => if r = "" then b1 else appendPair b1 "reason" r)
            (appendPair (if 0 < h then appendPair "" "hours" (Itoa h) else "")
              "password" inst.Password))
          "unique_id" u := by
    by_cases hh : 0 < h <;> by_cases hr : r = "" <;>
      simp [Values.Encode, buildParams, banParams, Values.Set, GoMap.set, GoMap.keys, sortKeys,
        insertKey, GoMap.get, keyOrder, hh, hr]
  rw [key]
  obtain ⟨k1, k2, _, k4, k5⟩ := QueryEscape_keys
  by_cases hh : 0 < h <;> by_cases hr : r = "" <;>
    simp only [hh, hr, if_true, if_false] <;>
    repeat rw [appendPair_of_pos _ _ _ (appendPair_size_pos _ _ _)]
  all_goals
    rw [appendPair_empty]
    simp only [k1, k2, k4, k5]
    apply String.ext
    simp [String.data_append]

/-- The query of the ban call, the hours being digits that need no escape. -/
theorem encode_ban_digits (inst : Instance) (u : String) (h : Int) (r : String) :
    Values.Encode (buildParams inst (banParams u h r))
      = (if 0 < h then "hours=" ++ Itoa h ++ "&" else "")
        ++ ("password=" ++ QueryEscape inst.Password)
        ++ (if r = "" then "" else "&reason=" ++ QueryEscape r)
        ++ ("&unique_id=" ++ QueryEscape u) := by
  rw [encode_ban]
  by_cases hh : 0 < h
  · rw [QueryEscape_Itoa h (le_of_lt hh)]
  · simp [hh]

/-- The parameters sent with a ban, key by key. -/
theorem sentParams_ban (inst : Instance) (u : String) (h : Int) (r : String) (k : String) :
    GoMap.get (buildParams inst (banParams u h r)) k =
      if k = "password" then some [inst.Password]
      else if k = "unique_id" then some [u]
      else if k = "hours" then (if 0 < h then some [Itoa h] else none)
      else if k = "reason" then (if r = "" then none else some [r])
      else none := by
  by_cases hh : 0 < h <;> by_cases hr : r = "" <;>
    simp [buildParams, banParams, Values.Set, GoMap.set, GoMap.get, GoMap.delete, hh, hr]
  all_goals (split_ifs <;> first | rfl | (subst_vars; simp at *))

/-- The parameter `password` is the secret of the instance whenever no extra
parameter has the key `password`. -/
theorem password_kept (inst : Instance) (extra : GoMap String)
    (h : ∀ kv ∈ extra, kv.1 ≠ "password") :
    GoMap.get (buildParams inst extra) "password" = some [inst.Password] := by
  unfold buildParams
  have gen : ∀ (v : Values), GoMap.get v "password" = some [inst.Password] →
      GoMap.get (extra.foldl (fun params kv => Values.Set params kv.1 kv.2) v) "password"
        = some [inst.Password] := by
    induction extra with
    | nil => intro v hv; simpa using hv
    | cons kv rest ih =>
      intro v hv
      simp only [List.foldl_cons]
      apply ih (fun x hx => h x (List.mem_cons_of_mem _ hx))
      have hne : "password" ≠ kv.1 := fun e => h kv (List.mem_cons_self _ _) e.symm
      rw [Values.Set, GoMap.get_set_other _ _ _ _ hne]
      exact hv
  exact gen _ (by simp [Values.Set, GoMap.set, GoMap.get])

end api

/-- C3: when the response to the request of `makeGETRequest` (or of
`makePOSTRequest`) has a body that decodes to an envelope, the helper returns
no error exactly when the status is 200 and the envelope's succeeded flag is
true; with a status other than 200 the error is `HTTP <status>: <message>`
whatever the flag; and the decoded envelope is returned in every case. -/
theorem request_error_classification {D : Type} (http : api.Transport D) (inst : Instance)
    (endpoint : String) (extra : GoMap String) (status : Int) (body : api.APIResponse D) :
    (http { method := "GET", url := api.fullURL inst endpoint extra }
        = api.Reply.decoded status body →
      ((api.makeGETRequest http inst endpoint extra).1.err = none
          ↔ status = 200 ∧ body.Succeeded = true) ∧
      (status ≠ 200 → (api.makeGETRequest http inst endpoint extra).1.err
          = some ("HTTP " ++ Itoa status ++ ": " ++ body.Message)) ∧
      (api.makeGETRequest http inst endpoint extra).1.resp = some body) ∧
    (http { method := "POST", url := api.fullURL inst endpoint extra }
        = api.Reply.decoded status body →
      ((api.makePOSTRequest http inst endpoint extra).1.err = none
          ↔ status = 200 ∧ body.Succeeded = true) ∧
      (status ≠ 200 → (api.makePOSTRequest http inst endpoint extra).1.err
          = some ("HTTP " ++ Itoa status ++ ": " ++ body.Message)) ∧
      (api.makePOSTRequest http inst endpoint extra).1.resp = some body) := by
  constructor
  · intro h
    simp only [api.makeGETRequest, h]
    by_cases hs : status = 200 <;> cases hb : body.Succeeded <;> simp [hs, hb]
  · intro h
    simp only [api.makePOSTRequest, h]
    by_cases hs : status = 200 <;> cases hb : body.Succeeded <;> simp [hs, hb]

/-- Witness of C3: a response with status 500 and an envelope whose succeeded
flag is true gives the error `HTTP 500: boom`. -/
theorem request_error_classification_witness :
    (api.makeGETRequest (api.answering 500 "boom" true) api.sampleInstance "/version" []).1.err
        = some "HTTP 500: boom" ∧
    (api.makePOSTRequest (api.answering 500 "boom" true) api.sampleInstance "/chat"
        [("message", "hi")]).1.err = some "HTTP 500: boom" :=
  ⟨((request_error_classification (api.answering 500 "boom" true) api.sampleInstance
        "/version" [] 500 { Data := (), Message := "boom", Succeeded := true }).1 rfl).2.1
      (by decide),
   ((request_error_classification (api.answering 500 "boom" true) api.sampleInstance
        "/chat" [("message", "hi")] 500
        { Data := (), Message := "boom", Succeeded := true }).2 rfl).2.1 (by decide)⟩

/-- Counterexample to C4 as stated: on a response with status 200 and the
envelope `message = "nope", succeeded = false`, the error returned by
`makeGETRequest` is `API call failed: nope`, which is not the envelope's
message `nope`. -/
theorem failed_envelope_error_not_message :
    ¬ (∀ (http : api.Transport Unit) (inst : Instance) (endpoint : String)
        (extra : GoMap String) (body : api.APIResponse Unit),
        http { method := "GET", url := api.fullURL inst endpoint extra }
            = api.Reply.decoded 200 body →
        body.Succeeded = false →
        (api.makeGETRequest http inst endpoint extra).1.err = some body.Message) := by
  intro h
  have h1 := h (api.answering 200 "nope" false) api.sampleInstance "/version" []
    { Data := (), Message := "nope", Succeeded := false } rfl rfl
  revert h1
  decide

/-- C4 (amended): on a response with status 200 whose envelope has
`succeeded = false`, both helpers return the error `API call failed: `
followed by the envelope's message, together with the decoded envelope. -/
theorem failed_envelope_error {D : Type} (http : api.Transport D) (inst : Instance)
    (endpoint : String) (extra : GoMap String) (body : api.APIResponse D)
    (hb : body.Succeeded = false) :
    (http { method := "GET", url := api.fullURL inst endpoint extra }
        = api.Reply.decoded 200 body →
      (api.makeGETRequest http inst endpoint extra).1.err
          = some ("API call failed: " ++ body.Message) ∧
      (api.makeGETRequest http inst endpoint extra).1.resp = some body) ∧
    (http { method := "POST", url := api.fullURL inst endpoint extra }
        = api.Reply.decoded 200 body →
      (api.makePOSTRequest http inst endpoint extra).1.err
          = some ("API call failed: " ++ body.Message) ∧
      (api.makePOSTRequest http inst endpoint extra).1.resp = some body) := by
  constructor
  · intro h
    simp only [api.makeGETRequest, h]
    simp [hb]
  · intro h
    simp only [api.makePOSTRequest, h]
    simp [hb]

/-- Witness of C4 (amended): status 200 with `succeeded = false` and message
`nope`. -/
theorem failed_envelope_error_witness :
    (api.makePOSTRequest (api.answering 200 "nope" false) api.sampleInstance "/player/kick"
        [("unique_id", "abc123")]).1.err = some "API call failed: nope" ∧
    ((api.makePOSTRequest (api.answering 200 "nope" false) api.sampleInstance "/player/kick"
        [("unique_id", "abc123")]).1.resp.map (fun r => r.Message)) = some "nope" :=
  have h := (failed_envelope_error (api.answering 200 "nope" false) api.sampleInstance
    "/player/kick" [("unique_id", "abc123")]
    { Data := (), Message := "nope", Succeeded := false } rfl).2 rfl
  ⟨h.1, by rw [h.2]; rfl⟩

/-- C5: `SendChatMessage` with an empty message and `KickPlayer`, `BanPlayer`,
`UnbanPlayer` with an empty unique ID return an error and no envelope, and
hand no request to the HTTP library, on every network and instance; with a
non-empty message or unique ID each of them is the call of `makePOSTRequest`
on its endpoint, which hands exactly one request to the HTTP library. -/
theorem empty_input_rejected_locally {D : Type} (http : api.Transport D) (inst : Instance)
    (hours : Int) (reason : String) :
    (api.SendChatMessage http inst "").1.resp = none ∧
    (api.SendChatMessage http inst "").1.err = some "message cannot be empty" ∧
    (api.SendChatMessage http inst "").2 = [] ∧
    (api.KickPlayer http inst "").1.resp = none ∧
    (api.KickPlayer http inst "").1.err = some "unique_id cannot be empty" ∧
    (api.KickPlayer http inst "").2 = [] ∧
    (api.BanPlayer http inst "" hours reason).1.resp = none ∧
    (api.BanPlayer http inst "" hours reason).1.err = some "unique_id cannot be empty" ∧
    (api.BanPlayer http inst "" hours reason).2 = [] ∧
    (api.UnbanPlayer http inst "").1.resp = none ∧
    (api.UnbanPlayer http inst "").1.err = some "unique_id cannot be empty" ∧
    (api.UnbanPlayer http inst "").2 = [] ∧
    (∀ s : String, s ≠ "" →
      (api.SendChatMessage http inst s
          = api.makePOSTRequest http inst "/chat" [("message", s)] ∧
        (api.SendChatMessage http inst s).2.length = 1) ∧
      (api.KickPlayer http inst s
          = api.makePOSTRequest http inst "/player/kick" [("unique_id", s)] ∧
        (api.KickPlayer http inst s).2.length = 1) ∧
      (api.BanPlayer http inst s hours reason
          = api.makePOSTRequest http inst "/player/ban" (api.banParams s hours reason) ∧
        (api.BanPlayer http inst s hours reason).2.length = 1) ∧
      (api.UnbanPlayer http inst s
          = api.makePOSTRequest http inst "/player/unban" [("unique_id", s)] ∧
        (api.UnbanPlayer http inst s).2.length = 1)) := by
  refine ⟨rfl, rfl, rfl, rfl, rfl, rfl, rfl, rfl, rfl, rfl, rfl, rfl, ?_⟩
  intro s hs
  simp [api.SendChatMessage, api.KickPlayer, api.BanPlayer, api.UnbanPlayer, hs,
    api.makePOSTRequest_log]

/-- Witness of C5: the non-empty unique ID `abc123` reaches the request step. -/
theorem empty_input_rejected_locally_witness :
    (api.KickPlayer (api.answering 200 "kicked" true) api.sampleInstance "abc123").2.length = 1 :=
  ((empty_input_rejected_locally (api.answering 200 "kicked" true) api.sampleInstance 0 "").2.2.2.2.2.2.2.2.2.2.2.2
    "abc123" (by decide)).2.1.2

/-- C6: for a non-empty unique ID, `BanPlayer` hands to the HTTP library one
POST request built from the parameter map `banParams`; that map binds
`unique_id` to the unique ID, binds `hours` exactly when `hours > 0` (to the
text `Itoa hours`, which denotes `hours` in base 10: `5` gives `hours=5`, `0`
and negative numbers give no `hours` key), binds `reason` exactly when the
reason is not empty (to the reason), and binds no other key; the parameters
sent are these and `password`, and the query string of the request spells
them out. -/
theorem BanPlayer_parameters {D : Type} (http : api.Transport D) (inst : Instance)
    (uniqueID : String) (hours : Int) (reason : String) (hid : uniqueID ≠ "") :
    (api.BanPlayer http inst uniqueID hours reason).2
      = [{ method := "POST"
           url := api.fullURL inst "/player/ban" (api.banParams uniqueID hours reason) }] ∧
    GoMap.get (api.banParams uniqueID hours reason) "unique_id" = some uniqueID ∧
    (GoMap.get (api.banParams uniqueID hours reason) "hours"
      = if 0 < hours then some (Itoa hours) else none) ∧
    (hours = 5 → GoMap.get (api.banParams uniqueID hours reason) "hours" = some "5") ∧
    (hours ≤ 0 → GoMap.get (api.banParams uniqueID hours reason) "hours" = none) ∧
    (GoMap.get (api.banParams uniqueID hours reason) "reason"
      = if reason = "" then none else some reason) ∧
    (∀ k : String, k ≠ "unique_id" → k ≠ "hours" → k ≠ "reason" →
      GoMap.get (api.banParams uniqueID hours reason) k = none) ∧
    (∀ k : String, GoMap.get (api.buildParams inst (api.banParams uniqueID hours reason)) k =
      if k = "password" then some [inst.Password]
      else if k = "unique_id" then some [uniqueID]
      else if k = "hours" then (if 0 < hours then some [Itoa hours] else none)
      else if k = "reason" then (if reason = "" then none else some [reason])
      else none) ∧
    decimalValue (Itoa hours) = some hours ∧
    Values.Encode (api.buildParams inst (api.banParams uniqueID hours reason))
      = (if 0 < hours then "hours=" ++ Itoa hours ++ "&" else "")
        ++ ("password=" ++ QueryEscape inst.Password)
        ++ (if reason = "" then "" else "&reason=" ++ QueryEscape reason)
        ++ ("&unique_id=" ++ QueryEscape uniqueID) := by
  have hget : ∀ k : String, GoMap.get (api.banParams uniqueID hours reason) k =
      if k = "unique_id" then some uniqueID
      else if k = "hours" then (if 0 < hours then some (Itoa hours) else none)
      else if k = "reason" then (if reason = "" then none else some reason)
      else none := by
    intro k
    by_cases hh : 0 < hours <;> by_cases hr : reason = "" <;>
      simp [api.banParams, GoMap.set, GoMap.get, GoMap.delete, hh, hr]
    all_goals (split_ifs <;> first | rfl | (subst_vars; simp at *))
  refine ⟨?_, ?_, ?_, ?_, ?_, ?_, ?_, api.sentParams_ban inst uniqueID hours reason,
    decimalValue_Itoa hours, api.encode_ban_digits inst uniqueID hours reason⟩
  · simp [api.BanPlayer, hid, api.makePOSTRequest_log]
  · rw [hget]; simp
  · rw [hget]; simp
  · intro h5
    subst h5
    have h5 : Itoa 5 = "5" := by decide
    rw [hget]
    simp [h5]
  · intro hle
    rw [hget]
    simp [not_lt.mpr hle]
  · rw [hget]; simp
  · intro k h1 h2 h3
    rw [hget]
    simp [h1, h2, h3]

/-- Witness of C6: a ban of `abc123` for 5 hours without a reason. -/
theorem BanPlayer_parameters_witness :
    (api.BanPlayer (api.answering 200 "banned" true) api.sampleInstance "abc123" 5 "").2
      = [{ method := "POST"
           url := "http://10.0.0.5:8080/player/ban?hours=5&password=s3cret&unique_id=abc123" }] :=
  (BanPlayer_parameters (api.answering 200 "banned" true) api.sampleInstance "abc123" 5 ""
    (by decide)).1.trans (by decide)

/-- C7: every call builds one request, to `http://{address}:{port}{path}`
with the path of its intent, by GET for the five queries and by POST for chat,
kick, ban and unban, with a query string that holds `password` set to the
secret of the instance next to the parameters of the intent; and the
parameter `password` keeps that value whatever extra parameters are added
under other keys. -/
theorem requests_follow_wire_protocol {D : Type} (http : api.Transport D) (inst : Instance)
    (message uniqueID reason : String) (hours : Int)
    (hm : message ≠ "") (hid : uniqueID ≠ "") :
    (api.SendChatMessage http inst message).2
      = [api.wireRequest inst "POST" "/chat"
          ("message=" ++ QueryEscape message ++ "&password=" ++ QueryEscape inst.Password)] ∧
    (api.GetPlayerCount http inst).2
      = [api.wireRequest inst "GET" "/player/count" ("password=" ++ QueryEscape inst.Password)] ∧
    (api.GetPlayerList http inst).2
      = [api.wireRequest inst "GET" "/player/list" ("password=" ++ QueryEscape inst.Password)] ∧
    (api.GetBanList http inst).2
      = [api.wireRequest inst "GET" "/player/banlist"
          ("password=" ++ QueryEscape inst.Password)] ∧
    (api.GetVersion http inst).2
      = [api.wireRequest inst "GET" "/version" ("password=" ++ QueryEscape inst.Password)] ∧
    (api.GetHousingList http inst).2
      = [api.wireRequest inst "GET" "/housing/list"
          ("password=" ++ QueryEscape inst.Password)] ∧
    (api.KickPlayer http inst uniqueID).2
      = [api.wireRequest inst "POST" "/player/kick"
          ("password=" ++ QueryEscape inst.Password ++ "&unique_id=" ++ QueryEscape uniqueID)] ∧
    (api.BanPlayer http inst uniqueID hours reason).2
      = [api.wireRequest inst "POST" "/player/ban"
          ((if 0 < hours then "hours=" ++ Itoa hours ++ "&" else "")
            ++ ("password=" ++ QueryEscape inst.Password)
            ++ (if reason = "" then "" else "&reason=" ++ QueryEscape reason)
            ++ ("&unique_id=" ++ QueryEscape uniqueID))] ∧
    (api.UnbanPlayer http inst uniqueID).2
      = [api.wireRequest inst "POST" "/player/unban"
          ("password=" ++ QueryEscape inst.Password ++ "&unique_id=" ++ QueryEscape uniqueID)] ∧
    GoMap.get (api.buildParams inst []) "password" = some [inst.Password] ∧
    GoMap.get (api.buildParams inst [("message", message)]) "password"
      = some [inst.Password] ∧
    GoMap.get (api.buildParams inst [("unique_id", uniqueID)]) "password"
      = some [inst.Password] ∧
    GoMap.get (api.buildParams inst (api.banParams uniqueID hours reason)) "password"
      = some [inst.Password] := by
  refine ⟨?_, ?_, ?_, ?_, ?_, ?_, ?_, ?_, ?_, ?_, ?_, ?_, ?_⟩
  · simp [api.SendChatMessage, hm, api.makePOSTRequest_log, api.fullURL, api.wireRequest,
      api.encode_message]
  · simp [api.GetPlayerCount, api.makeGETRequest_log, api.fullURL, api.wireRequest,
      api.encode_noExtra]
  · simp [api.GetPlayerList, api.makeGETRequest_log, api.fullURL, api.wireRequest,
      api.encode_noExtra]
  · simp [api.GetBanList, api.makeGETRequest_log, api.fullURL, api.wireRequest,
      api.encode_noExtra]
  · simp [api.GetVersion, api.makeGETRequest_log, api.fullURL, api.wireRequest,
      api.encode_noExtra]
  · simp [api.GetHousingList, api.makeGETRequest_log, api.fullURL, api.wireRequest,
      api.encode_noExtra]
  · simp [api.KickPlayer, hid, api.makePOSTRequest_log, api.fullURL, api.wireRequest,
      api.encode_uniqueID]
  · simp only [api.BanPlayer, hid, if_false, api.makePOSTRequest_log, api.fullURL,
      api.wireRequest, api.encode_ban_digits]
  · simp [api.UnbanPlayer, hid, api.makePOSTRequest_log, api.fullURL, api.wireRequest,
      api.encode_uniqueID]
  · exact api.password_kept inst [] (by simp)
  · exact api.password_kept inst _ (by simp)
  · exact api.password_kept inst _ (by simp)
  · rw [api.sentParams_ban]; simp

/-- Witness of C7: kicking `abc123` on the instance at `10.0.0.5:8080`. -/
theorem requests_follow_wire_protocol_witness :
    (api.KickPlayer (api.answering 200 "kicked" true) api.sampleInstance "abc123").2
      = [{ method := "POST"
           url := "http://10.0.0.5:8080/player/kick?password=s3cret&unique_id=abc123" }] :=
  (requests_follow_wire_protocol (api.answering 200 "kicked" true) api.sampleInstance
    "hello" "abc123" "" 0 (by decide) (by decide)).2.2.2.2.2.2.1.trans (by decide)

/-! ## Theorems: the validators -/

namespace configure

/-- What `validatePassword` decides, in bytes: it accepts the non-empty
strings of at most 72 bytes. -/
theorem validatePassword_eq_none_iff (password : String) :
    validatePassword password = none ↔ password ≠ "" ∧ password.utf8ByteSize ≤ 72 := by
  unfold validatePassword
  by_cases h1 : password = ""
  · simp [h1]
  · by_cases h2 : password.utf8ByteSize > 72
    · simp [h1, h2]
    · simp [h1, h2]
      omega

theorem Atoi_eq_some {s : String} {v : Int} (h : Atoi s = some v) : decimalValue s = some v := by
  unfold Atoi at h
  cases hd : decimalValue s with
  | none => simp [hd] at h
  | some w =>
    simp only [hd] at h
    split_ifs at h
    simpa using h

theorem Atoi_of_decimalValue {s : String} {v : Int} (h : decimalValue s = some v)
    (hlo : -9223372036854775808 ≤ v) (hhi : v ≤ 9223372036854775807) : Atoi s = some v := by
  simp [Atoi, h, hlo, hhi]

theorem validateIPParts_eq_none (parts : List String) :
    ∀ i : Nat, validateIPParts i parts = none →
      ∀ part ∈ parts, ∃ n : Int, Atoi part = some n ∧ 0 ≤ n ∧ n ≤ 255 := by
  induction parts with
  | nil => intro i _ part hp; simp at hp
  | cons p rest ih =>
    intro i h part hp
    unfold validateIPParts at h
    cases ha : Atoi p with
    | none => simp [ha] at h
    | some num =>
      simp only [ha] at h
      by_cases hr : num < 0 ∨ num > 255
      · simp [hr] at h
      · rw [if_neg hr] at h
        rcases List.mem_cons.mp hp with rfl | hmem
        · exact ⟨num, ha, by omega, by omega⟩
        · exact ih (i + 1) h part hmem

theorem promptWithRetryLoop_accepts (validator : String → Option String) (maxAttempts : Nat) :
    ∀ (fuel attempt : Nat) (scanner : Scanner) (input : String) (rest : Scanner),
      promptWithRetryLoop validator maxAttempts fuel attempt scanner = ((input, none), rest) →
      validator input = none := by
  intro fuel
  induction fuel with
  | zero => intro attempt scanner input rest h; simp [promptWithRetryLoop] at h
  | succ fuel ih =>
    intro attempt scanner input rest h
    cases scanner with
    | nil => simp [promptWithRetryLoop] at h
    | cons line more =>
      unfold promptWithRetryLoop at h
      cases hv : validator (TrimSpace line) with
      | none =>
        simp only [hv] at h
        have : TrimSpace line = input := by
          have := congrArg (fun r => r.1.1) h
          simpa using this
        rw [← this]
        exact hv
      | some e =>
        simp only [hv] at h
        split_ifs at h
        · exact ih _ _ _ _ h
        · simp at h

theorem promptWithRetry_accepts (scanner : Scanner) (validator : String → Option String)
    (input : String) (rest : Scanner)
    (h : promptWithRetry scanner validator = ((input, none), rest)) : validator input = none :=
  promptWithRetryLoop_accepts validator 3 3 1 scanner input rest h

theorem validatePort_eq_none_iff (portStr : String) :
    validatePort portStr = none ↔ ∃ v : Int, Atoi portStr = some v ∧ 0 ≤ v ∧ v ≤ 65535 := by
  unfold validatePort
  by_cases h1 : portStr = ""
  · subst h1
    simp
    intro v hv
    have : Atoi "" = none := by decide
    rw [this] at hv
    simp at hv
  · cases ha : Atoi portStr with
    | none => simp [h1]
    | some port =>
      simp only [h1, if_false]
      by_cases hr : port < 0 ∨ port > 65535
      · simp [hr]
        intro h0
        omega
      · simp [hr]
        omega

end configure

/-- C8, at the failing input: the string of 72 copies of `é` has exactly 72
characters (and 144 bytes), and `validatePassword` rejects it with the message
`password cannot exceed 72 characters`, while it accepts 72 copies of `e`. -/
theorem validatePassword_rejects_72_two_byte_characters :
    configure.secret72.length = 72 ∧
    configure.secret72.utf8ByteSize = 144 ∧
    configure.validatePassword configure.secret72
      = some "password cannot exceed 72 characters" ∧
    configure.validatePassword (String.mk (List.replicate 72 'e')) = none := by
  decide

/-- C9: a string accepted by `validateIP` splits at its dots into exactly
four parts, each of which `Atoi` reads as a decimal integer between 0 and 255;
`validateIP` rejects the empty string, `1.2.3` and `1.2.3.999`, and accepts
`127.0.0.1`, whatever the parser of the IPv6 syntax is. -/
theorem validateIP_accepts_only_dotted_quads (parseIPv6 : String → Option (List Nat))
    (ip : String) :
    (configure.validateIP parseIPv6 ip = none →
      (Split ip '.').length = 4 ∧
      ∀ part ∈ Split ip '.', ∃ n : Int,
        Atoi part = some n ∧ decimalValue part = some n ∧ 0 ≤ n ∧ n ≤ 255) ∧
    configure.validateIP parseIPv6 "" = some "IP cannot be empty" ∧
    configure.validateIP parseIPv6 "1.2.3" = some "invalid IP address format" ∧
    configure.validateIP parseIPv6 "1.2.3.999" = some "invalid IP address format" ∧
    configure.validateIP parseIPv6 "127.0.0.1" = none := by
  refine ⟨?_, rfl, rfl, rfl, rfl⟩
  intro h
  unfold configure.validateIP at h
  by_cases h1 : ip = ""
  · simp [h1] at h
  · rw [if_neg h1] at h
    cases hp : ParseIP parseIPv6 ip with
    | none => simp [hp] at h
    | some parsed =>
      simp only [hp] at h
      cases h4 : To4 parsed with
      | none => simp [h4] at h
      | some quad =>
        simp only [h4] at h
        by_cases hl : (Split ip '.').length = 4
        · simp only [hl, ne_eq, not_true_eq_false, if_false] at h
          refine ⟨hl, fun part hpart => ?_⟩
          obtain ⟨n, hn, h0, h255⟩ := configure.validateIPParts_eq_none _ 0 h part hpart
          exact ⟨n, hn, configure.Atoi_eq_some hn, h0, h255⟩
        · simp [hl] at h

/-- Witness of C9: `127.0.0.1` is accepted and has the four parts `127`, `0`,
`0`, `1`. -/
theorem validateIP_accepts_only_dotted_quads_witness :
    configure.validateIP configure.noIPv6 "127.0.0.1" = none ∧
    (Split "127.0.0.1" '.').length = 4 :=
  ⟨by decide,
   ((validateIP_accepts_only_dotted_quads configure.noIPv6 "127.0.0.1").1 (by decide)).1⟩

/-- C10: `validatePort` accepts a string exactly when the string denotes a
decimal integer between 0 and 65535; it rejects the empty string, every string
that denotes no integer, every negative value and every value above 65535, and
accepts `0` and `65535`; and the port of a record returned without error by
`promptInstanceConfig` lies between 0 and 65535. -/
theorem validatePort_accepts_iff_in_range (portStr : String) :
    (configure.validatePort portStr = none
      ↔ ∃ v : Int, decimalValue portStr = some v ∧ 0 ≤ v ∧ v ≤ 65535) ∧
    configure.validatePort "" = some "port cannot be empty" ∧
    (decimalValue portStr = none → configure.validatePort portStr ≠ none) ∧
    (∀ v : Int, decimalValue portStr = some v → v < 0 →
      configure.validatePort portStr ≠ none) ∧
    (∀ v : Int, decimalValue portStr = some v → 65535 < v →
      configure.validatePort portStr ≠ none) ∧
    configure.validatePort "0" = none ∧
    configure.validatePort "65535" = none ∧
    (∀ (parseIPv6 : String → Option (List Nat)) (scanner rest : configure.Scanner)
        (inst : Instance),
      configure.promptInstanceConfig parseIPv6 scanner = ((inst, none), rest) →
      0 ≤ inst.Port ∧ inst.Port ≤ 65535) := by
  have hiff : configure.validatePort portStr = none
      ↔ ∃ v : Int, decimalValue portStr = some v ∧ 0 ≤ v ∧ v ≤ 65535 := by
    rw [configure.validatePort_eq_none_iff]
    constructor
    · rintro ⟨v, hv, h0, h1⟩
      exact ⟨v, configure.Atoi_eq_some hv, h0, h1⟩
    · rintro ⟨v, hv, h0, h1⟩
      exact ⟨v, configure.Atoi_of_decimalValue hv (by omega) (by omega), h0, h1⟩
  refine ⟨hiff, rfl, ?_, ?_, ?_, by decide, by decide, ?_⟩
  · intro hnone hacc
    obtain ⟨v, hv, _⟩ := hiff.mp hacc
    rw [hnone] at hv
    simp at hv
  · intro v hv hneg hacc
    obtain ⟨w, hw, h0, _⟩ := hiff.mp hacc
    rw [hv] at hw
    have : v = w := by simpa using hw
    omega
  · intro v hv hbig hacc
    obtain ⟨w, hw, _, h1⟩ := hiff.mp hacc
    rw [hv] at hw
    have : v = w := by simpa using hw
    omega
  · intro parseIPv6 scanner rest inst h
    unfold configure.promptInstanceConfig at h
    rcases h1 : configure.promptWithRetry scanner (configure.validateIP parseIPv6)
      with ⟨⟨ip, e1⟩, sc1⟩
    cases e1 with
    | some e => simp [h1] at h
    | none =>
      simp only [h1] at h
      rcases h2 : configure.promptWithRetry sc1 configure.validatePort with ⟨⟨portStr2, e2⟩, sc2⟩
      cases e2 with
      | some e => simp [h2] at h
      | none =>
        simp only [h2] at h
        rcases h3 : configure.promptWithRetry sc2 configure.validatePassword
          with ⟨⟨pw, e3⟩, sc3⟩
        cases e3 with
        | some e => simp [h3] at h
        | none =>
          simp only [h3] at h
          have hacc := configure.promptWithRetry_accepts sc1 configure.validatePort portStr2 sc2 h2
          obtain ⟨v, hv, h0, h1'⟩ := (configure.validatePort_eq_none_iff portStr2).mp hacc
          have hinst : inst.Port = v := by
            have := congrArg (fun r => r.1.1.Port) h
            simp [hv] at this
            exact this.symm
          rw [hinst]
          exact ⟨h0, h1'⟩

/-- Witness of C10: the lines `127.0.0.1`, `8080`, `s3cret` give a record
without error, whose port is 8080. -/
theorem validatePort_accepts_iff_in_range_witness :
    configure.promptInstanceConfig configure.noIPv6 ["127.0.0.1", "8080", "s3cret"]
      = (({ IP := "127.0.0.1", Port := 8080, Password := "s3cret" }, none), []) ∧
    (0 : Int) ≤ 8080 ∧ (8080 : Int) ≤ 65535 :=
  ⟨by decide,
   (validatePort_accepts_iff_in_range "8080").2.2.2.2.2.2.2 configure.noIPv6
     ["127.0.0.1", "8080", "s3cret"] []
     { IP := "127.0.0.1", Port := 8080, Password := "s3cret" } (by decide)⟩

/-! ## Theorems: the mask of a secret -/

namespace configure

theorem utf8Size_ascii (c : Char) (h : c.toNat < 128) : c.utf8Size = 1 := by
  have h1 : c.val ≤ 0x7F := by
    rw [UInt32.le_def]
    show c.val.toNat ≤ 127
    have : c.toNat = c.val.toNat := rfl
    omega
  simp [Char.utf8Size, h1]

theorem utf8ByteSize_ascii (cs : List Char) (h : ∀ c ∈ cs, c.toNat < 128) :
    (String.mk cs).utf8ByteSize = cs.length := by
  induction cs with
  | nil => rfl
  | cons c rest ih =>
    have hr := ih (fun x hx => h x (List.mem_cons_of_mem _ hx))
    have hc := utf8Size_ascii c (h c (List.mem_cons_self _ _))
    simp only [String.utf8ByteSize_mk] at hr ⊢
    simp [String.utf8Len_cons, hr, hc]

theorem goBytes_ascii (cs : List Char) (h : ∀ c ∈ cs, c.toNat < 128) :
    goBytes (String.mk cs) = cs.map Char.toNat := by
  induction cs with
  | nil => rfl
  | cons c rest ih =>
    have hr := ih (fun x hx => h x (List.mem_cons_of_mem _ hx))
    have hc := h c (List.mem_cons_self _ _)
    simp only [goBytes] at hr ⊢
    simp [List.flatMap_cons, hr, utf8Bytes, hc]

/-- On a secret of one-byte characters `maskPassword` is the mask of the
spec: as many characters as the secret, all `*` when there are at most three,
and otherwise the first two characters followed by `*` for each other one. -/
theorem maskPassword_ascii (password : String) (h : ∀ c ∈ password.data, c.toNat < 128) :
    maskPassword password
      = goBytes (String.mk
          (if password.length ≤ 3 then List.replicate password.length '*'
           else password.data.take 2 ++ List.replicate (password.length - 2) '*')) := by
  obtain ⟨cs⟩ := password
  have hlen : (String.mk cs).utf8ByteSize = cs.length := utf8ByteSize_ascii cs h
  have hstar : ∀ n : Nat, ∀ c ∈ List.replicate n '*', c.toNat < 128 := by
    intro n c hc
    rw [List.eq_of_mem_replicate hc]
    decide
  unfold maskPassword
  rw [hlen]
  show _ = goBytes (String.mk (if cs.length ≤ 3 then _ else _))
  by_cases h3 : cs.length ≤ 3
  · rw [if_pos h3, if_pos h3, goBytes_ascii _ (hstar _)]
    simp
  · rw [if_neg h3, if_neg h3, goBytes_ascii cs h, goBytes_ascii]
    · simp [List.map_take]
    · intro c hc
      rcases List.mem_append.mp hc with h1 | h1
      · exact h c (List.mem_of_mem_take h1)
      · exact hstar _ c h1

end configure

/-- C11, at the failing inputs: the secret `éé` has two characters and four
bytes, and `maskPassword` returns the bytes of `é**`, which has three
characters and shows the first character although the secret has fewer than
four; the secret `aéb` has three characters and `maskPassword` returns the
bytes `a`, `0xC3`, `*`, `*`, which end the first two bytes in the middle of
`é`. The examples of the spec, `ab` and `abcdef`, give `**` and `ab****`. -/
theorem maskPassword_counts_bytes :
    ("éé" : String).length = 2 ∧
    configure.maskPassword "éé" = goBytes "é**" ∧
    ("é**" : String).length = 3 ∧
    ("aéb" : String).length = 3 ∧
    configure.maskPassword "aéb" = [97, 195, 42, 42] ∧
    configure.maskPassword "ab" = goBytes "**" ∧
    configure.maskPassword "abcdef" = goBytes "ab****" := by
  decide

/-! ## Theorems: the session -/

namespace api

theorem makeGETRequest_resp {D : Type} (http : Transport D) (inst : Instance)
    (endpoint : String) (extra : GoMap String)
    (h : (makeGETRequest http inst endpoint extra).1.err = none) :
    (makeGETRequest http inst endpoint extra).1.resp ≠ none := by
  unfold makeGETRequest at h ⊢
  cases hr : http { method := "GET", url := fullURL inst endpoint extra } with
  | decoded status body =>
    simp only [hr] at h ⊢
    split_ifs <;> simp
  | _ => simp [hr] at h

theorem makePOSTRequest_resp {D : Type} (http : Transport D) (inst : Instance)
    (endpoint : String) (extra : GoMap String)
    (h : (makePOSTRequest http inst endpoint extra).1.err = none) :
    (makePOSTRequest http inst endpoint extra).1.resp ≠ none := by
  unfold makePOSTRequest at h ⊢
  cases hr : http { method := "POST", url := fullURL inst endpoint extra } with
  | decoded status body =>
    simp only [hr] at h ⊢
    split_ifs <;> simp
  | _ => simp [hr] at h

theorem SendChatMessage_resp {D : Type} (http : Transport D) (inst : Instance) (m : String)
    (h : (SendChatMessage http inst m).1.err = none) :
    (SendChatMessage http inst m).1.resp ≠ none := by
  unfold SendChatMessage at h ⊢
  by_cases hm : m = ""
  · simp [hm] at h
  · simp only [hm, if_false] at h ⊢
    exact makePOSTRequest_resp _ _ _ _ h

theorem KickPlayer_resp {D : Type} (http : Transport D) (inst : Instance) (u : String)
    (h : (KickPlayer http inst u).1.err = none) : (KickPlayer http inst u).1.resp ≠ none := by
  unfold KickPlayer at h ⊢
  by_cases hu : u = ""
  · simp [hu] at h
  · simp only [hu, if_false] at h ⊢
    exact makePOSTRequest_resp _ _ _ _ h

theorem UnbanPlayer_resp {D : Type} (http : Transport D) (inst : Instance) (u : String)
    (h : (UnbanPlayer http inst u).1.err = none) : (UnbanPlayer http inst u).1.resp ≠ none := by
  unfold UnbanPlayer at h ⊢
  by_cases hu : u = ""
  · simp [hu] at h
  · simp only [hu, if_false] at h ⊢
    exact makePOSTRequest_resp _ _ _ _ h

theorem BanPlayer_resp {D : Type} (http : Transport D) (inst : Instance) (u : String)
    (hours : Int) (reason : String)
    (h : (BanPlayer http inst u hours reason).1.err = none) :
    (BanPlayer http inst u hours reason).1.resp ≠ none := by
  unfold BanPlayer at h ⊢
  by_cases hu : u = ""
  · simp [hu] at h
  · simp only [hu, if_false] at h ⊢
    exact makePOSTRequest_resp _ _ _ _ h

end api

namespace connect

/-- A handler that ends through `afterCall` returns: it does not panic when
the call gives an envelope whenever it gives no error, and its error is the
error of the call behind the context. -/
theorem afterCall_returned {F : Type} (context : String)
    (call : api.Result (JsonValue F) × List api.Request)
    (h : call.1.err = none → call.1.resp ≠ none) :
    afterCall context call
      = (Run.returned (call.1.err.map (fun e => context ++ ": " ++ e)), call.2) := by
  unfold afterCall
  cases he : call.1.err with
  | some e => simp
  | none =>
    cases hr : call.1.resp with
    | none => exact absurd hr (h he)
    | some r => simp

end connect

theorem fieldsFrom_dropWhile (l : List Char) :
    fieldsFrom [] (l.dropWhile isSpace) = fieldsFrom [] l := by
  induction l with
  | nil => rfl
  | cons c cs ih =>
    by_cases hc : isSpace c = true
    · simp [List.dropWhile, hc, fieldsFrom, ih]
    · simp [List.dropWhile, hc]

theorem fieldsFrom_append_space (c : Char) (hc : isSpace c = true) (xs : List Char) :
    ∀ cur : List Char, fieldsFrom cur (xs ++ [c]) = fieldsFrom cur xs := by
  induction xs with
  | nil =>
    intro cur
    cases cur <;> simp [fieldsFrom, hc]
  | cons x rest ih =>
    intro cur
    by_cases hx : isSpace x = true
    · simp [fieldsFrom, hx, ih]
    · simp [fieldsFrom, hx, ih]

theorem fieldsFrom_trimRight (l : List Char) :
    ∀ cur : List Char,
      fieldsFrom cur (l.reverse.dropWhile isSpace).reverse = fieldsFrom cur l := by
  induction l using List.reverseRecOn with
  | nil => intro cur; rfl
  | append_singleton xs c ih =>
    intro cur
    by_cases hc : isSpace c = true
    · simp only [List.reverse_append, List.reverse_cons, List.reverse_nil, List.nil_append,
        List.singleton_append, List.dropWhile, hc]
      rw [ih, fieldsFrom_append_space c hc]
    · simp [List.dropWhile, hc]

theorem Fields_TrimSpace (s : String) : Fields (TrimSpace s) = Fields s := by
  unfold Fields TrimSpace
  rw [fieldsFrom_trimRight, fieldsFrom_dropWhile]

theorem fieldsFrom_eq_nil (l : List Char) :
    ∀ cur : List Char, fieldsFrom cur l = [] → cur = [] ∧ ∀ c ∈ l, isSpace c = true := by
  induction l with
  | nil =>
    intro cur h
    cases cur with
    | nil => simp
    | cons a b => simp [fieldsFrom] at h
  | cons c cs ih =>
    intro cur h
    by_cases hc : isSpace c = true
    · cases cur with
      | nil =>
        simp only [fieldsFrom, hc, if_true, List.isEmpty_nil] at h
        refine ⟨rfl, fun x hx => ?_⟩
        rcases List.mem_cons.mp hx with rfl | hx
        · exact hc
        · exact (ih [] h).2 x hx
      | cons a b => simp [fieldsFrom, hc] at h
    · simp only [fieldsFrom, hc] at h
      have := (ih (c :: cur) (by simpa using h)).1
      simp at this

/-- A line has no field exactly when nothing is left of it after
`TrimSpace`. -/
theorem Fields_eq_nil_iff (s : String) : Fields s = [] ↔ TrimSpace s = "" := by
  constructor
  · intro h
    have hall := (fieldsFrom_eq_nil s.data [] h).2
    have hd : s.data.dropWhile isSpace = [] := by
      rw [List.dropWhile_eq_nil_iff]
      exact hall
    apply String.ext
    simp [TrimSpace, hd]
  · intro h
    rw [← Fields_TrimSpace, h]
    rfl

namespace connect

theorem handleChatCommand_returns {F : Type} (http : api.Transport (JsonValue F))
    (parts : List String) (inst : Instance) :
    (handleChatCommand http parts inst).1 ≠ Run.panicked := by
  unfold handleChatCommand
  split_ifs
  · simp
  · rw [afterCall_returned _ _ (api.SendChatMessage_resp _ _ _)]; simp

theorem handleKickCommand_returns {F : Type} (http : api.Transport (JsonValue F))
    (parts : List String) (inst : Instance) :
    (handleKickCommand http parts inst).1 ≠ Run.panicked := by
  unfold handleKickCommand
  split_ifs
  · simp
  · rw [afterCall_returned _ _ (api.KickPlayer_resp _ _ _)]; simp

theorem handleBanCommand_returns {F : Type} (http : api.Transport (JsonValue F))
    (parts : List String) (inst : Instance) :
    (handleBanCommand http parts inst).1 ≠ Run.panicked := by
  unfold handleBanCommand
  by_cases h2 : parts.length < 2
  · simp [h2]
  · simp only [h2, if_false]
    rw [afterCall_returned _ _ (api.BanPlayer_resp _ _ _ _ _)]; simp

theorem handleUnbanCommand_returns {F : Type} (http : api.Transport (JsonValue F))
    (parts : List String) (inst : Instance) :
    (handleUnbanCommand http parts inst).1 ≠ Run.panicked := by
  unfold handleUnbanCommand
  split_ifs
  · simp
  · rw [afterCall_returned _ _ (api.UnbanPlayer_resp _ _ _)]; simp

theorem handlePlayerListCommand_returns {F : Type} (http : api.Transport (JsonValue F))
    (inst : Instance) : (handlePlayerListCommand http inst).1 ≠ Run.panicked := by
  unfold handlePlayerListCommand api.GetPlayerList
  rw [afterCall_returned _ _ (api.makeGETRequest_resp _ _ _ _)]; simp

theorem handleBanListCommand_returns {F : Type} (http : api.Transport (JsonValue F))
    (inst : Instance) : (handleBanListCommand http inst).1 ≠ Run.panicked := by
  unfold handleBanListCommand api.GetBanList
  rw [afterCall_returned _ _ (api.makeGETRequest_resp _ _ _ _)]; simp

theorem handleHousingCommand_returns {F : Type} (http : api.Transport (JsonValue F))
    (inst : Instance) : (handleHousingCommand http inst).1 ≠ Run.panicked := by
  unfold handleHousingCommand api.GetHousingList
  rw [afterCall_returned _ _ (api.makeGETRequest_resp _ _ _ _)]; simp

theorem handlePlayerCountCommand_returns {F : Type} (http : api.Transport (JsonValue F))
    (inst : Instance) : (handlePlayerCountCommand http inst).1 ≠ Run.panicked := by
  unfold handlePlayerCountCommand api.GetPlayerCount
  have hresp := api.makeGETRequest_resp http inst "/player/count" []
  cases he : (api.makeGETRequest http inst "/player/count" []).1.err with
  | some e => simp [he]
  | none =>
    cases hr : (api.makeGETRequest http inst "/player/count" []).1.resp with
    | none => exact absurd hr (hresp he)
    | some r =>
      simp only [he, hr]
      split <;> (try split) <;> simp

theorem handleVersionCommand_returns {F : Type} (http : api.Transport (JsonValue F))
    (inst : Instance) : (handleVersionCommand http inst).1 ≠ Run.panicked := by
  unfold handleVersionCommand api.GetVersion
  have hresp := api.makeGETRequest_resp http inst "/version" []
  cases he : (api.makeGETRequest http inst "/version" []).1.err with
  | some e => simp [he]
  | none =>
    cases hr : (api.makeGETRequest http inst "/version" []).1.resp with
    | none => exact absurd hr (hresp he)
    | some r =>
      simp only [he, hr]
      split <;> (try split) <;> simp

/-- No handler panics: whatever the network answers, the `switch` of
`startShell` returns to the loop or leaves it by `return nil`. -/
theorem dispatch_ne_panicked {F : Type} (http : api.Transport (JsonValue F)) (command : String)
    (parts : List String) (inst : Instance) (log : List api.Request) :
    dispatch http command parts inst ≠ some (Run.panicked, log) := by
  have key : ∀ r : Run (Option String) × List api.Request, r.1 ≠ Run.panicked →
      some r ≠ some (Run.panicked, log) := by
    intro r hr h
    apply hr
    have := Option.some.inj h
    rw [this]
  have hret : (Run.returned none : Run (Option String)) ≠ Run.panicked := by
    intro h; cases h
  have branch : ∀ (c : Prop) [Decidable c]
      (a b : Option (Run (Option String) × List api.Request)),
      a ≠ some (Run.panicked, log) → b ≠ some (Run.panicked, log) →
      (if c then a else b) ≠ some (Run.panicked, log) := by
    intro c _ a b ha hb
    by_cases hc : c
    · rw [if_pos hc]; exact ha
    · rw [if_neg hc]; exact hb
  unfold dispatch
  repeat' apply branch
  · intro h; cases h
  · exact key _ hret
  · exact key _ (handleChatCommand_returns _ _ _)
  · exact key _ (handlePlayerListCommand_returns _ _)
  · exact key _ (handlePlayerCountCommand_returns _ _)
  · exact key _ (handleBanListCommand_returns _ _)
  · exact key _ (handleKickCommand_returns _ _ _)
  · exact key _ (handleBanCommand_returns _ _ _)
  · exact key _ (handleUnbanCommand_returns _ _ _)
  · exact key _ (handleVersionCommand_returns _ _)
  · exact key _ (handleHousingCommand_returns _ _)
  · exact key _ hret

end connect

namespace connect

theorem dispatch_eq_none_iff {F : Type} (http : api.Transport (JsonValue F)) (command : String)
    (parts : List String) (inst : Instance) :
    dispatch http command parts inst = none
      ↔ command = "exit" ∨ command = "quit" ∨ command = "disconnect" := by
  have branch : ∀ (c : Prop) [Decidable c]
      (a b : Option (Run (Option String) × List api.Request)),
      a ≠ none → b ≠ none → (if c then a else b) ≠ none := by
    intro c _ a b ha hb
    by_cases hc : c
    · rw [if_pos hc]; exact ha
    · rw [if_neg hc]; exact hb
  unfold dispatch
  by_cases h : command = "exit" ∨ command = "quit" ∨ command = "disconnect"
  · rw [if_pos h]
    exact ⟨fun _ => h, fun _ => rfl⟩
  · rw [if_neg h]
    refine ⟨fun hnone => absurd hnone ?_, fun hc => absurd hc h⟩
    repeat' apply branch
    all_goals exact Option.some_ne_none _

/-- One turn on a line: the session ends when the first field of the line,
in lower case, is one of the three words, and otherwise stays as it is. -/
theorem shellStep_line {F : Type} (lowerRune : Char → Char)
    (http : api.Transport (JsonValue F)) (inst : Instance) (instanceName line : String) :
    ((∃ first later, Fields line = first :: later ∧
        (ToLower lowerRune first = "exit" ∨ ToLower lowerRune first = "quit"
          ∨ ToLower lowerRune first = "disconnect")) ∧
      (shellStep lowerRune http inst instanceName (some line)).1 = Session.terminated) ∨
    ((¬ ∃ first later, Fields line = first :: later ∧
        (ToLower lowerRune first = "exit" ∨ ToLower lowerRune first = "quit"
          ∨ ToLower lowerRune first = "disconnect")) ∧
      (shellStep lowerRune http inst instanceName (some line)).1
        = Session.connected inst instanceName) := by
  unfold shellStep
  simp only [Fields_TrimSpace]
  by_cases hblank : TrimSpace line = ""
  · right
    have hnil := (Fields_eq_nil_iff line).mpr hblank
    simp [hblank, hnil]
  · have hne : Fields line ≠ [] := fun h => hblank ((Fields_eq_nil_iff line).mp h)
    simp only [hblank, if_false]
    cases hf : Fields line with
    | nil => exact absurd hf hne
    | cons first later =>
      simp only []
      cases hd : dispatch http (ToLower lowerRune first) (first :: later) inst with
      | none =>
        left
        exact ⟨⟨first, later, rfl, (dispatch_eq_none_iff _ _ _ _).mp hd⟩, rfl⟩
      | some r =>
        right
        have hcmd : ¬ (ToLower lowerRune first = "exit" ∨ ToLower lowerRune first = "quit"
            ∨ ToLower lowerRune first = "disconnect") := by
          intro h
          rw [(dispatch_eq_none_iff http _ (first :: later) inst).mpr h] at hd
          cases hd
        refine ⟨?_, ?_⟩
        · rintro ⟨f, l, hfl, hw⟩
          have h1 : first = f := (List.cons.inj hfl).1
          exact hcmd (h1 ▸ hw)
        · obtain ⟨run, log⟩ := r
          cases run with
          | panicked => exact absurd hd (dispatch_ne_panicked _ _ _ _ _)
          | returned e => rfl

end connect

/-- C12: with at least two fields, `handleBanCommand` makes the call of
`BanPlayer` with field 2 as the unique ID, with the hours `banHours` of the
later fields (the integer value of field 3 when it exists and `Atoi` reads it,
0 otherwise) and with the reason `banReason` (fields 4 and later joined by
single spaces, empty without a field 4); it hands on the requests of that
call and returns its error behind `failed to ban player: `, or nil; a field 3
that is no integer gives the call with 0 hours and is no part of the reason;
with fewer than two fields it returns the usage error and makes no call. -/
theorem handleBanCommand_arguments {F : Type} (http : api.Transport (JsonValue F))
    (inst : Instance) (command uniqueID : String) (rest : List String) :
    connect.handleBanCommand http (command :: uniqueID :: rest) inst
      = (Run.returned
          ((api.BanPlayer http inst uniqueID (connect.banHours rest)
              (connect.banReason rest)).1.err.map (fun e => "failed to ban player: " ++ e)),
         (api.BanPlayer http inst uniqueID (connect.banHours rest)
              (connect.banReason rest)).2) ∧
    (uniqueID ≠ "" →
      (connect.handleBanCommand http (command :: uniqueID :: rest) inst).2
        = [{ method := "POST"
             url := api.fullURL inst "/player/ban"
               (api.banParams uniqueID (connect.banHours rest) (connect.banReason rest)) }]) ∧
    (∀ (field3 : String) (later : List String), rest = field3 :: later →
      (∀ h : Int, Atoi field3 = some h → connect.banHours rest = h) ∧
      (Atoi field3 = none → connect.banHours rest = 0) ∧
      connect.banReason rest = Join later " ") ∧
    (rest = [] → connect.banHours rest = 0 ∧ connect.banReason rest = "") ∧
    connect.banHours ["5", "being", "rude"] = 5 ∧
    connect.banHours ["soon", "being", "rude"] = 0 ∧
    connect.banReason ["soon", "being", "rude"] = "being rude" ∧
    connect.banReason ["5"] = "" ∧
    connect.handleBanCommand http [command] inst
      = (Run.returned (some "usage: ban <unique_id> [hours] [reason]"), []) ∧
    connect.handleBanCommand http [] inst
      = (Run.returned (some "usage: ban <unique_id> [hours] [reason]"), []) := by
  have hcall : connect.handleBanCommand http (command :: uniqueID :: rest) inst
      = connect.afterCall "failed to ban player"
          (api.BanPlayer http inst uniqueID (connect.banHours rest)
            (connect.banReason rest)) := by
    cases rest with
    | nil => rfl
    | cons field3 later =>
      cases later with
      | nil => simp [connect.handleBanCommand, connect.banHours, connect.banReason, Join]
      | cons field4 more =>
        simp [connect.handleBanCommand, connect.banHours, connect.banReason]
  have hfull := hcall.trans
    (connect.afterCall_returned "failed to ban player" _ (api.BanPlayer_resp _ _ _ _ _))
  refine ⟨hfull, ?_, ?_, ?_, by decide, by decide, by decide, by decide, rfl, rfl⟩
  · intro hid
    rw [hfull]
    simp [api.BanPlayer, hid, api.makePOSTRequest_log]
  · intro field3 later hrest
    subst hrest
    refine ⟨?_, ?_, rfl⟩
    · intro h hh
      simp [connect.banHours, hh]
    · intro hh
      simp [connect.banHours, hh]
  · intro hrest
    subst hrest
    exact ⟨rfl, rfl⟩

/-- Witness of C12: `ban abc123 soon being rude` on the instance at
`10.0.0.5:8080` sends a ban without hours, for the reason `being rude`. -/
theorem handleBanCommand_arguments_witness :
    (connect.handleBanCommand connect.accepting ["ban", "abc123", "soon", "being", "rude"]
        api.sampleInstance).2
      = [{ method := "POST"
           url := "http://10.0.0.5:8080/player/ban?password=s3cret&reason=being+rude&unique_id=abc123" }] :=
  ((handleBanCommand_arguments connect.accepting api.sampleInstance "ban" "abc123"
      ["soon", "being", "rude"]).2.1 (by decide)).trans (by decide)

/-- C13: one turn of the connected session on a line ends the session exactly
when the first white-space-delimited field of the line, in lower case, is
`exit`, `quit` or `disconnect`; on every other line (blank, unknown word, a
command whose handler returns an error of any kind, whatever the network
does) the session stays connected to the same instance, without panic; at the
end of the input the session ends; and `startShell` over any input and any
network returns nil. -/
theorem session_ends_only_on_exit_words {F : Type} (lowerRune : Char → Char)
    (http : api.Transport (JsonValue F)) (inst : Instance) (instanceName line : String) :
    ((connect.shellStep lowerRune http inst instanceName (some line)).1
        = connect.Session.terminated
      ↔ ∃ first later, Fields line = first :: later ∧
          (ToLower lowerRune first = "exit" ∨ ToLower lowerRune first = "quit"
            ∨ ToLower lowerRune first = "disconnect")) ∧
    ((connect.shellStep lowerRune http inst instanceName (some line)).1
        ≠ connect.Session.terminated →
      (connect.shellStep lowerRune http inst instanceName (some line)).1
        = connect.Session.connected inst instanceName) ∧
    (connect.shellStep lowerRune http inst instanceName none).1
      = connect.Session.terminated ∧
    (∀ (net : Nat → api.Transport (JsonValue F)) (lines : List String),
      (connect.startShell lowerRune net inst instanceName lines).1 = Run.returned none) := by
  refine ⟨?_, ?_, rfl, ?_⟩
  · rcases connect.shellStep_line lowerRune http inst instanceName line with ⟨h1, h2⟩ | ⟨h1, h2⟩
    · exact ⟨fun _ => h1, fun _ => h2⟩
    · constructor
      · intro h
        rw [h2] at h
        cases h
      · intro h
        exact absurd h h1
  · intro hne
    rcases connect.shellStep_line lowerRune http inst instanceName line with ⟨_, h2⟩ | ⟨_, h2⟩
    · exact absurd h2 hne
    · exact h2
  · intro net lines
    induction lines generalizing net with
    | nil => rfl
    | cons l rest ih =>
      unfold connect.startShell
      rcases connect.shellStep_line lowerRune (net 0) inst instanceName l with ⟨_, h2⟩ | ⟨_, h2⟩
      · rcases hs : connect.shellStep lowerRune (net 0) inst instanceName (some l) with ⟨st, log⟩
        rw [hs] at h2
        simp only at h2
        subst h2
        rfl
      · rcases hs : connect.shellStep lowerRune (net 0) inst instanceName (some l) with ⟨st, log⟩
        rw [hs] at h2
        simp only at h2
        subst h2
        simp only []
        exact ih (fun n => net (n + 1))

/-- Witness of C13: on a network where no request gets through, `kick abc`
leaves the session connected to the same instance, and `QUIT` ends it. -/
theorem session_ends_only_on_exit_words_witness :
    (connect.shellStep id connect.offline api.sampleInstance "main" (some "kick abc")).1
      = connect.Session.connected api.sampleInstance "main" ∧
    (connect.shellStep id connect.offline api.sampleInstance "main" (some " QUIT now")).1
      = connect.Session.terminated :=
  ⟨(session_ends_only_on_exit_words id connect.offline api.sampleInstance "main"
      "kick abc").2.1 (by decide),
   (session_ends_only_on_exit_words id connect.offline api.sampleInstance "main"
      " QUIT now").1.mpr ⟨"QUIT", ["now"], by decide, Or.inr (Or.inl (by decide))⟩⟩

/-! ## Theorems: the wizard -/

namespace configure

theorem promptWithRetryLoop_reads (validator : String → Option String) (maxAttempts : Nat) :
    ∀ (fuel attempt : Nat) (scanner : Scanner),
      ∃ k, k ≤ fuel ∧
        (promptWithRetryLoop validator maxAttempts fuel attempt scanner).2 = scanner.drop k := by
  intro fuel
  induction fuel with
  | zero => intro attempt scanner; exact ⟨0, le_refl _, rfl⟩
  | succ fuel ih =>
    intro attempt scanner
    cases scanner with
    | nil => exact ⟨0, Nat.zero_le _, rfl⟩
    | cons line rest =>
      cases hv : validator (TrimSpace line) with
      | none =>
        simp only [promptWithRetryLoop, hv]
        exact ⟨1, by omega, rfl⟩
      | some e =>
        simp only [promptWithRetryLoop, hv]
        split_ifs
        · obtain ⟨k, hk, hdrop⟩ := ih (attempt + 1) rest
          exact ⟨k + 1, by omega, by rw [hdrop]; rfl⟩
        · exact ⟨1, by omega, rfl⟩

theorem promptWithRetryLoop_result (validator : String → Option String) (maxAttempts : Nat) :
    ∀ (fuel attempt : Nat) (scanner : Scanner), attempt + fuel = maxAttempts + 1 →
      (∀ l, ((scanner.take fuel).map TrimSpace).find? (fun l => (validator l).isNone) = some l →
        (promptWithRetryLoop validator maxAttempts fuel attempt scanner).1 = (l, none)) ∧
      (((scanner.take fuel).map TrimSpace).find? (fun l => (validator l).isNone) = none →
        ∃ e, (promptWithRetryLoop validator maxAttempts fuel attempt scanner).1
          = ("", some e)) := by
  intro fuel
  induction fuel with
  | zero =>
    intro attempt scanner _
    refine ⟨fun l h => ?_, fun _ => ⟨_, rfl⟩⟩
    simp at h
  | succ fuel ih =>
    intro attempt scanner hsum
    cases scanner with
    | nil =>
      refine ⟨fun l h => ?_, fun _ => ⟨_, rfl⟩⟩
      simp at h
    | cons line rest =>
      cases hv : validator (TrimSpace line) with
      | none =>
        simp only [promptWithRetryLoop, List.take_succ_cons, List.map_cons, List.find?_cons, hv,
          Option.isNone_none]
        refine ⟨fun l h => ?_, fun h => ?_⟩
        · have : TrimSpace line = l := by simpa using h
          rw [this]
        · simp at h
      | some e =>
        simp only [promptWithRetryLoop, List.take_succ_cons, List.map_cons, List.find?_cons, hv,
          Option.isNone_some]
        by_cases hlt : attempt < maxAttempts
        · simp only [hlt, if_true]
          exact ih (attempt + 1) rest (by omega)
        · simp only [hlt, if_false]
          have hfuel : fuel = 0 := by omega
          subst hfuel
          refine ⟨fun l h => ?_, fun _ => ⟨_, rfl⟩⟩
          simp at h

theorem promptWithDefaultsLoop_accepts (defaultValue : String)
    (validator : String → Option String) (maxAttempts : Nat) :
    ∀ (fuel attempt : Nat) (scanner : Scanner) (input : String) (rest : Scanner),
      promptWithDefaultsLoop defaultValue validator maxAttempts fuel attempt scanner
        = ((input, none), rest) →
      validator input = none := by
  intro fuel
  induction fuel with
  | zero => intro attempt scanner input rest h; simp [promptWithDefaultsLoop] at h
  | succ fuel ih =>
    intro attempt scanner input rest h
    cases scanner with
    | nil => simp [promptWithDefaultsLoop] at h
    | cons line more =>
      cases hv : validator (if TrimSpace line = "" then defaultValue else TrimSpace line) with
      | none =>
        simp only [promptWithDefaultsLoop, hv] at h
        have : (if TrimSpace line = "" then defaultValue else TrimSpace line) = input := by
          have := congrArg (fun r => r.1.1) h
          simpa using this
        rw [← this]
        exact hv
      | some e =>
        simp only [promptWithDefaultsLoop, hv] at h
        split_ifs at h
        · exact ih _ _ _ _ h
        · simp at h

theorem promptWithDefaults_accepts (scanner : Scanner) (defaultValue : String)
    (validator : String → Option String) (input : String) (rest : Scanner)
    (h : promptWithDefaults scanner defaultValue validator = ((input, none), rest)) :
    validator input = none :=
  promptWithDefaultsLoop_accepts defaultValue validator 3 3 1 scanner input rest h

/-- Three accepted fields make a well-formed record. -/
theorem wellFormed_of_accepted (parseIPv6 : String → Option (List Nat))
    (ip portStr password : String) (hip : validateIP parseIPv6 ip = none)
    (hport : validatePort portStr = none) (hpw : validatePassword password = none) :
    WellFormedRecord parseIPv6
      { IP := ip, Port := (Atoi portStr).getD 0, Password := password } := by
  obtain ⟨v, hv, h0, h1⟩ := (validatePort_eq_none_iff portStr).mp hport
  exact ⟨hip, by simp [hv, h0], by simp [hv, h1], hpw⟩

/-- A record returned without error by `promptInstanceConfig` is made of the
three lines its prompts returned, each without error. -/
theorem promptInstanceConfig_success (parseIPv6 : String → Option (List Nat))
    (scanner rest : Scanner) (inst : Instance)
    (h : promptInstanceConfig parseIPv6 scanner = ((inst, none), rest)) :
    ∃ (ip portStr password : String) (sc1 sc2 : Scanner),
      promptWithRetry scanner (validateIP parseIPv6) = ((ip, none), sc1) ∧
      promptWithRetry sc1 validatePort = ((portStr, none), sc2) ∧
      promptWithRetry sc2 validatePassword = ((password, none), rest) ∧
      inst = { IP := ip, Port := (Atoi portStr).getD 0, Password := password } := by
  unfold promptInstanceConfig at h
  rcases h1 : promptWithRetry scanner (validateIP parseIPv6) with ⟨⟨ip, e1⟩, sc1⟩
  cases e1 with
  | some e => simp [h1] at h
  | none =>
    simp only [h1] at h
    rcases h2 : promptWithRetry sc1 validatePort with ⟨⟨portStr, e2⟩, sc2⟩
    cases e2 with
    | some e => simp [h2] at h
    | none =>
      simp only [h2] at h
      rcases h3 : promptWithRetry sc2 validatePassword with ⟨⟨pw, e3⟩, sc3⟩
      cases e3 with
      | some e => simp [h3] at h
      | none =>
        simp only [h3] at h
        have hi : inst = { IP := ip, Port := (Atoi portStr).getD 0, Password := pw } := by
          have := congrArg (fun r => r.1.1) h
          simpa [Instance.zero] using this.symm
        have hr : sc3 = rest := by
          have := congrArg (fun r => r.2) h
          simpa using this
        exact ⟨ip, portStr, pw, sc1, sc2, rfl, h2, by rw [← hr, h3], hi⟩

/-- The same for `promptInstanceConfigWithDefaults`. -/
theorem promptInstanceConfigWithDefaults_success (parseIPv6 : String → Option (List Nat))
    (scanner rest : Scanner) (existing inst : Instance)
    (h : promptInstanceConfigWithDefaults parseIPv6 scanner existing = ((inst, none), rest)) :
    ∃ (ip portStr password : String) (sc1 sc2 : Scanner),
      promptWithDefaults scanner existing.IP (validateIP parseIPv6) = ((ip, none), sc1) ∧
      promptWithDefaults sc1 (Itoa existing.Port) validatePort = ((portStr, none), sc2) ∧
      promptWithDefaults sc2 existing.Password validatePassword = ((password, none), rest) ∧
      inst = { IP := ip, Port := (Atoi portStr).getD 0, Password := password } := by
  unfold promptInstanceConfigWithDefaults at h
  rcases h1 : promptWithDefaults scanner existing.IP (validateIP parseIPv6)
    with ⟨⟨ip, e1⟩, sc1⟩
  cases e1 with
  | some e => simp [h1] at h
  | none =>
    simp only [h1] at h
    rcases h2 : promptWithDefaults sc1 (Itoa existing.Port) validatePort
      with ⟨⟨portStr, e2⟩, sc2⟩
    cases e2 with
    | some e => simp [h2] at h
    | none =>
      simp only [h2] at h
      rcases h3 : promptWithDefaults sc2 existing.Password validatePassword
        with ⟨⟨pw, e3⟩, sc3⟩
      cases e3 with
      | some e => simp [h3] at h
      | none =>
        simp only [h3] at h
        have hi : inst = { IP := ip, Port := (Atoi portStr).getD 0, Password := pw } := by
          have := congrArg (fun r => r.1.1) h
          simpa [Instance.zero] using this.symm
        have hr : sc3 = rest := by
          have := congrArg (fun r => r.2) h
          simpa using this
        exact ⟨ip, portStr, pw, sc1, sc2, rfl, h2, by rw [← hr, h3], hi⟩

/-- The two ways `addInstance` ends: with an error and the registry as it
was, or without error after the name prompt and `promptInstanceConfig` both
returned without error, the name being new, with the record stored under the
name. -/
theorem addInstance_cases (parseIPv6 : String → Option (List Nat)) (scanner : Scanner)
    (cfg : config.Config) :
    (∃ e, (addInstance parseIPv6 scanner cfg).1 = some e ∧
      (addInstance parseIPv6 scanner cfg).2.1 = cfg) ∨
    (∃ (name : String) (inst : Instance) (sc1 : Scanner),
      promptWithRetry scanner validateInstanceName = ((name, none), sc1) ∧
      (config.GetInstance cfg name).2 = false ∧
      promptInstanceConfig parseIPv6 sc1
        = ((inst, none), (addInstance parseIPv6 scanner cfg).2.2) ∧
      (addInstance parseIPv6 scanner cfg).1 = none ∧
      (addInstance parseIPv6 scanner cfg).2.1 = config.AddInstance cfg name inst) := by
  unfold addInstance
  rcases h1 : promptWithRetry scanner validateInstanceName with ⟨⟨name, e1⟩, sc1⟩
  cases e1 with
  | some e => left; exact ⟨e, rfl, rfl⟩
  | none =>
    simp only []
    cases hex : (config.GetInstance cfg name).2 with
    | true =>
      left
      exact ⟨"instance '" ++ name ++ "' already exists", by simp, by simp⟩
    | false =>
      simp only [Bool.false_eq_true, if_false]
      rcases h2 : promptInstanceConfig parseIPv6 sc1 with ⟨⟨inst, e2⟩, sc2⟩
      cases e2 with
      | some e => left; exact ⟨e, rfl, rfl⟩
      | none => right; exact ⟨name, inst, sc1, rfl, hex, h2, rfl, rfl⟩

theorem mem_insertKey (k x : String) (l : List String) :
    x ∈ insertKey k l ↔ x = k ∨ x ∈ l := by
  induction l with
  | nil => simp [insertKey]
  | cons y ys ih =>
    unfold insertKey
    split_ifs
    · simp
    · simp only [List.mem_cons, ih]
      tauto

theorem mem_sortKeys (x : String) (l : List String) : x ∈ sortKeys l ↔ x ∈ l := by
  induction l with
  | nil => simp [sortKeys]
  | cons y ys ih => simp [sortKeys, mem_insertKey, ih]

theorem length_insertKey (k : String) (l : List String) :
    (insertKey k l).length = l.length + 1 := by
  induction l with
  | nil => rfl
  | cons y ys ih =>
    unfold insertKey
    split_ifs
    · rfl
    · simp [ih]

theorem get_of_mem_keys {α : Type} (m : GoMap α) (k : String) (h : k ∈ GoMap.keys m) :
    ∃ v, GoMap.get m k = some v := by
  induction m with
  | nil => simp [GoMap.keys] at h
  | cons kv rest ih =>
    obtain ⟨k', v⟩ := kv
    by_cases hk : k' = k
    · exact ⟨v, by simp [GoMap.get, hk]⟩
    · have hmem : k ∈ GoMap.keys rest := by
        simp only [GoMap.keys, List.map_cons, List.mem_cons] at h
        rcases h with h | h
        · exact absurd h.symm hk
        · exact h
      obtain ⟨w, hw⟩ := ih hmem
      exact ⟨w, by simp [GoMap.get, hk, hw]⟩

/-- A name listed by `ListInstances` is found by `GetInstance`. -/
theorem found_of_listed (cfg : config.Config) (name : String)
    (h : name ∈ config.ListInstances cfg) : (config.GetInstance cfg name).2 = true := by
  obtain ⟨m⟩ := cfg
  cases m with
  | none => simp [config.ListInstances] at h
  | some m =>
    obtain ⟨v, hv⟩ := get_of_mem_keys m name (by simpa [config.ListInstances] using h)
    simp [config.GetInstance, hv]

/-- A choice that passes the test `choice < 1 || choice > len(instances)` is
the index, from 1, of a name of the list. -/
theorem choice_in_range (instances : List String) (choice : Int)
    (h : ¬ (choice < 1 ∨ choice > instances.length)) :
    ∃ name, instances[(choice - 1).toNat]? = some name ∧ name ∈ instances := by
  have hlt : (choice - 1).toNat < instances.length := by omega
  exact ⟨instances[(choice - 1).toNat], List.getElem?_eq_getElem hlt, List.getElem_mem hlt⟩

/-- The two ways `editInstance` ends: with an error and the registry as it
was, or without error after `promptInstanceConfigWithDefaults` returned
without error, with the record stored under a name of the registry. It does
not panic. -/
theorem editInstance_cases (parseIPv6 : String → Option (List Nat)) (scanner : Scanner)
    (cfg : config.Config) :
    (∃ e, (editInstance parseIPv6 scanner cfg).1 = Run.returned (some e) ∧
      (editInstance parseIPv6 scanner cfg).2.1 = cfg) ∨
    (∃ (name : String) (inst : Instance) (line : String) (sc1 : Scanner) (choice : Int),
      scanner = line :: sc1 ∧ Atoi (TrimSpace line) = some choice ∧
      (sortKeys (config.ListInstances cfg))[(choice - 1).toNat]? = some name ∧
      name ∈ config.ListInstances cfg ∧
      promptInstanceConfigWithDefaults parseIPv6 sc1 (config.GetInstance cfg name).1
        = ((inst, none), (editInstance parseIPv6 scanner cfg).2.2) ∧
      (editInstance parseIPv6 scanner cfg).1 = Run.returned none ∧
      (editInstance parseIPv6 scanner cfg).2.1 = config.AddInstance cfg name inst) := by
  unfold editInstance
  cases scanner with
  | nil => left; exact ⟨_, rfl, rfl⟩
  | cons line sc1 =>
    simp only []
    cases hc : Atoi (TrimSpace line) with
    | none => left; exact ⟨_, rfl, rfl⟩
    | some choice =>
      simp only []
      by_cases hr : choice < 1 ∨ choice > (sortKeys (config.ListInstances cfg)).length
      · left
        rw [if_pos hr]
        exact ⟨_, rfl, rfl⟩
      · rw [if_neg hr]
        obtain ⟨name, hname, hmem⟩ := choice_in_range _ choice hr
        simp only [hname]
        rcases hp : promptInstanceConfigWithDefaults parseIPv6 sc1
          (config.GetInstance cfg name).1 with ⟨⟨inst, e⟩, sc2⟩
        cases e with
        | some e => left; exact ⟨e, rfl, rfl⟩
        | none =>
          right
          exact ⟨name, inst, line, sc1, choice, rfl, hc, hname, (mem_sortKeys _ _).mp hmem, hp,
            rfl, rfl⟩

/-- The ways `deleteInstance` ends: it does not panic, and the registry after
it is the one before it or that one after `DeleteInstance` of a name. -/
theorem deleteInstance_cases (lowerRune : Char → Char) (scanner : Scanner)
    (cfg : config.Config) :
    (deleteInstance lowerRune scanner cfg).1 ≠ Run.panicked ∧
    ((deleteInstance lowerRune scanner cfg).2.1 = cfg ∨
      ∃ name, (deleteInstance lowerRune scanner cfg).2.1
        = (config.DeleteInstance cfg name).1) := by
  unfold deleteInstance
  cases scanner with
  | nil => exact ⟨by simp, Or.inl rfl⟩
  | cons line sc1 =>
    simp only []
    cases hc : Atoi (TrimSpace line) with
    | none => exact ⟨by simp, Or.inl rfl⟩
    | some choice =>
      simp only []
      by_cases hr : choice < 1 ∨ choice > (sortKeys (config.ListInstances cfg)).length
      · rw [if_pos hr]
        exact ⟨by simp, Or.inl rfl⟩
      · rw [if_neg hr]
        obtain ⟨name, hname, _⟩ := choice_in_range _ choice hr
        simp only [hname]
        cases sc1 with
        | nil => exact ⟨by simp, Or.inl rfl⟩
        | cons answer sc2 =>
          simp only []
          split_ifs
          · exact ⟨by simp, Or.inl rfl⟩
          · rcases hd : config.DeleteInstance cfg name with ⟨cfg2, flag⟩
            cases flag with
            | true => exact ⟨by simp, Or.inr ⟨name, by rw [hd]⟩⟩
            | false => exact ⟨by simp, Or.inr ⟨name, by rw [hd]⟩⟩

theorem nameChar_ascii (c : Char) (h : nameChar c = true) : c.toNat < 128 := by
  simp only [nameChar, Bool.or_eq_true, Bool.and_eq_true, decide_eq_true_eq] at h
  omega

/-- What `validateInstanceName` decides: it accepts the non-empty strings of
at most 72 characters, all of them among `a-z`, `0-9`, `_` and `-`. -/
theorem validateInstanceName_eq_none_iff (name : String) :
    validateInstanceName name = none
      ↔ name ≠ "" ∧ name.length ≤ 72 ∧ ∀ c ∈ name.data, nameChar c = true := by
  obtain ⟨cs⟩ := name
  have hempty : (String.mk cs = "") ↔ cs = [] := by
    constructor
    · intro h; exact congrArg String.data h
    · intro h; rw [h]
  have hlen : (String.mk cs).length = cs.length := rfl
  unfold validateInstanceName
  by_cases h1 : String.mk cs = ""
  · simp [h1]
  · have hne : cs ≠ [] := fun h => h1 (hempty.mpr h)
    rw [if_neg h1]
    by_cases hall : ∀ c ∈ cs, nameChar c = true
    · have hbytes := utf8ByteSize_ascii cs (fun c hc => nameChar_ascii c (hall c hc))
      have hmatch : validNameMatchString (String.mk cs) = true := by
        have h3 : cs.all nameChar = true := List.all_eq_true.mpr hall
        have h4 : cs.isEmpty = false := by
          cases cs with
          | nil => exact absurd rfl hne
          | cons a b => rfl
        simp [validNameMatchString, h3, h4]
      by_cases h2 : (String.mk cs).utf8ByteSize > 72
      · rw [if_pos h2]
        refine ⟨fun h => (by cases h), fun h => ?_⟩
        have hle := h.2.1
        rw [hlen] at hle
        omega
      · rw [if_neg h2, hmatch]
        simp only [Bool.not_true, Bool.false_eq_true, if_false]
        exact ⟨fun _ => ⟨h1, (by rw [hlen]; omega), hall⟩, fun _ => trivial⟩
    · have hmatch : validNameMatchString (String.mk cs) = false := by
        simp only [validNameMatchString, Bool.and_eq_false_iff]
        right
        simpa using hall
      have hrhs : ¬ (String.mk cs ≠ "" ∧ (String.mk cs).length ≤ 72
          ∧ ∀ c ∈ (String.mk cs).data, nameChar c = true) := fun h => hall h.2.2
      by_cases h2 : (String.mk cs).utf8ByteSize > 72
      · rw [if_pos h2]
        exact ⟨fun h => (by cases h), fun h => absurd h hrhs⟩
      · rw [if_neg h2, hmatch]
        simp only [Bool.not_false, if_true]
        exact ⟨fun h => (by cases h), fun h => absurd h hrhs⟩

theorem others_after_store (cfg : config.Config) (name other : String)
    (inst : Instance) (h : other ≠ name) :
    config.GetInstance (config.AddInstance cfg name inst) other
      = config.GetInstance cfg other := by
  obtain ⟨m⟩ := cfg
  cases m with
  | none => simp [config.AddInstance, config.GetInstance, GoMap.set, GoMap.get, h.symm]
  | some m => simp [config.AddInstance, config.GetInstance, GoMap.get_set_other m name other inst h]

theorem found_after_store (cfg : config.Config) (name : String) (inst : Instance) :
    config.GetInstance (config.AddInstance cfg name inst) name = (inst, true) := by
  simp [config.AddInstance, config.GetInstance, GoMap.get_set_same]

/-- Storing a well-formed record under an accepted name keeps the registry
well-formed. -/
theorem wellFormed_AddInstance (parseIPv6 : String → Option (List Nat)) (cfg : config.Config)
    (name : String) (inst : Instance) (hreg : WellFormedRegistry parseIPv6 cfg)
    (hname : validateInstanceName name = none) (hrec : WellFormedRecord parseIPv6 inst) :
    WellFormedRegistry parseIPv6 (config.AddInstance cfg name inst) := by
  intro other hfound
  by_cases h : other = name
  · subst h
    rw [found_after_store]
    exact ⟨hname, hrec⟩
  · rw [others_after_store cfg name other inst h] at hfound ⊢
    exact hreg other hfound

/-- Deleting a name keeps the registry well-formed. -/
theorem wellFormed_DeleteInstance (parseIPv6 : String → Option (List Nat))
    (cfg : config.Config) (name : String) (hreg : WellFormedRegistry parseIPv6 cfg) :
    WellFormedRegistry parseIPv6 (config.DeleteInstance cfg name).1 := by
  obtain ⟨m⟩ := cfg
  cases m with
  | none => exact hreg
  | some m =>
    cases hget : GoMap.get m name with
    | none =>
      have : (config.DeleteInstance { Instances := some m } name).1 = { Instances := some m } := by
        simp [config.DeleteInstance, hget]
      rw [this]
      exact hreg
    | some v =>
      have hdel : (config.DeleteInstance { Instances := some m } name).1
          = { Instances := some (GoMap.delete m name) } := by
        simp [config.DeleteInstance, hget]
      rw [hdel]
      intro other hfound
      by_cases h : other = name
      · subst h
        simp [config.GetInstance, GoMap.get_delete_same] at hfound
      · have hsame : config.GetInstance { Instances := some (GoMap.delete m name) } other
            = config.GetInstance { Instances := some m } other := by
          simp [config.GetInstance, GoMap.get_delete_other m name other h]
        rw [hsame] at hfound ⊢
        exact hreg other hfound

end configure

/-- C14: `promptWithRetry` reads at most three lines; it returns a line
without error exactly when that line is the first of the first three lines,
white space trimmed, that the validator accepts; it returns an error when the
validator accepts none of them, be it three rejected lines or fewer lines
than that; `addInstance` and `editInstance` leave the registry as it was
whenever they return an error, and they return an error whenever one of their
field prompts, run one after the other, returns an error. -/
theorem prompt_retry_budget (parseIPv6 : String → Option (List Nat))
    (validator : String → Option String) (scanner : configure.Scanner) (cfg : config.Config) :
    (∃ k, k ≤ 3 ∧ (configure.promptWithRetry scanner validator).2 = scanner.drop k) ∧
    (∀ input : String, (configure.promptWithRetry scanner validator).1 = (input, none)
      ↔ configure.firstAccepted validator scanner = some input) ∧
    (configure.firstAccepted validator scanner = none →
      ∃ e, (configure.promptWithRetry scanner validator).1 = ("", some e)) ∧
    (∀ e, (configure.addInstance parseIPv6 scanner cfg).1 = some e →
      (configure.addInstance parseIPv6 scanner cfg).2.1 = cfg) ∧
    (∀ e, (configure.editInstance parseIPv6 scanner cfg).1 = Run.returned (some e) →
      (configure.editInstance parseIPv6 scanner cfg).2.1 = cfg) ∧
    (((configure.promptWithRetry scanner configure.validateInstanceName).1.2 ≠ none ∨
      (configure.promptWithRetry
        (configure.promptWithRetry scanner configure.validateInstanceName).2
        (configure.validateIP parseIPv6)).1.2 ≠ none ∨
      (configure.promptWithRetry
        (configure.promptWithRetry
          (configure.promptWithRetry scanner configure.validateInstanceName).2
          (configure.validateIP parseIPv6)).2
        configure.validatePort).1.2 ≠ none ∨
      (configure.promptWithRetry
        (configure.promptWithRetry
          (configure.promptWithRetry
            (configure.promptWithRetry scanner configure.validateInstanceName).2
            (configure.validateIP parseIPv6)).2
          configure.validatePort).2
        configure.validatePassword).1.2 ≠ none) →
      ∃ e, (configure.addInstance parseIPv6 scanner cfg).1 = some e ∧
        (configure.addInstance parseIPv6 scanner cfg).2.1 = cfg) ∧
    (∀ (line name : String) (sc1 : configure.Scanner) (choice : Int),
      scanner = line :: sc1 → Atoi (TrimSpace line) = some choice →
      (sortKeys (config.ListInstances cfg))[(choice - 1).toNat]? = some name →
      ((configure.promptWithDefaults sc1 (config.GetInstance cfg name).1.IP
          (configure.validateIP parseIPv6)).1.2 ≠ none ∨
        (configure.promptWithDefaults
          (configure.promptWithDefaults sc1 (config.GetInstance cfg name).1.IP
            (configure.validateIP parseIPv6)).2
          (Itoa (config.GetInstance cfg name).1.Port) configure.validatePort).1.2 ≠ none ∨
        (configure.promptWithDefaults
          (configure.promptWithDefaults
            (configure.promptWithDefaults sc1 (config.GetInstance cfg name).1.IP
              (configure.validateIP parseIPv6)).2
            (Itoa (config.GetInstance cfg name).1.Port) configure.validatePort).2
          (config.GetInstance cfg name).1.Password configure.validatePassword).1.2 ≠ none) →
      ∃ e, (configure.editInstance parseIPv6 scanner cfg).1 = Run.returned (some e) ∧
        (configure.editInstance parseIPv6 scanner cfg).2.1 = cfg) := by
  have hres := configure.promptWithRetryLoop_result validator 3 3 1 scanner rfl
  refine ⟨configure.promptWithRetryLoop_reads validator 3 3 1 scanner, ?_, hres.2, ?_, ?_, ?_, ?_⟩
  · intro input
    constructor
    · intro h
      cases hf : configure.firstAccepted validator scanner with
      | none =>
        obtain ⟨e, he⟩ := hres.2 hf
        have h' : (configure.promptWithRetryLoop validator 3 3 1 scanner).1 = (input, none) := h
        rw [he] at h'
        cases h'
      | some l =>
        have hl := hres.1 l hf
        have h' : (configure.promptWithRetryLoop validator 3 3 1 scanner).1 = (input, none) := h
        rw [hl] at h'
        cases h'
        rfl
    · intro h
      exact hres.1 input h
  · intro e he
    rcases configure.addInstance_cases parseIPv6 scanner cfg with ⟨_, _, hcfg⟩ | ⟨_, _, _, _, _, _, hok, _⟩
    · exact hcfg
    · rw [hok] at he
      cases he
  · intro e he
    rcases configure.editInstance_cases parseIPv6 scanner cfg
      with ⟨_, _, hcfg⟩ | ⟨_, _, _, _, _, _, _, _, _, _, hok, _⟩
    · exact hcfg
    · rw [hok] at he
      cases he
  · intro hfail
    rcases configure.addInstance_cases parseIPv6 scanner cfg
      with ⟨e, he, hcfg⟩ | ⟨name, inst, sc1, h1, _, h2, _, _⟩
    · exact ⟨e, he, hcfg⟩
    · exfalso
      obtain ⟨ip, portStr, pw, sc2, sc3, hip, hport, hpw, _⟩ :=
        configure.promptInstanceConfig_success parseIPv6 sc1 _ inst h2
      rw [h1] at hfail
      simp only [hip, hport, hpw, ne_eq, not_true_eq_false, or_self] at hfail
  · intro line name sc1 choice hsc hchoice hname hfail
    rcases configure.editInstance_cases parseIPv6 scanner cfg
      with ⟨e, he, hcfg⟩ | ⟨name', inst, line', sc1', choice', hsc', hchoice', hname', _, h2, _, _⟩
    · exact ⟨e, he, hcfg⟩
    · exfalso
      rw [hsc] at hsc'
      obtain ⟨hl, hs⟩ := List.cons.inj hsc'
      subst hl
      subst hs
      rw [hchoice] at hchoice'
      have hc : choice = choice' := Option.some.inj hchoice'
      subst hc
      rw [hname] at hname'
      have hn : name = name' := Option.some.inj hname'
      subst hn
      obtain ⟨ip, portStr, pw, sc2, sc3, hip, hport, hpw, _⟩ :=
        configure.promptInstanceConfigWithDefaults_success parseIPv6 sc1 _ _ inst h2
      simp only [hip, hport, hpw, ne_eq, not_true_eq_false, or_self] at hfail

/-- Witness of C14: after the name `srv-2`, three lines that are no address
end `addInstance` with an error and the registry as it was. -/
theorem prompt_retry_budget_witness :
    ∃ e, (configure.addInstance configure.noIPv6 ["srv-2", "1.2.3", "", "x", "unread"]
        config.sampleConfig).1 = some e ∧
      (configure.addInstance configure.noIPv6 ["srv-2", "1.2.3", "", "x", "unread"]
        config.sampleConfig).2.1 = config.sampleConfig :=
  (prompt_retry_budget configure.noIPv6 configure.validatePort
    ["srv-2", "1.2.3", "", "x", "unread"] config.sampleConfig).2.2.2.2.2.1
    (Or.inr (Or.inl (by decide)))

/-- C15: when `addInstance` returns without error, the registry is the former
one with a record stored under a name such that the name is accepted by
`validateInstanceName` (it is not empty, has at most 72 characters, all among
`a-z`, `0-9`, `_` and `-`), the name was not in the registry, and the record
is well-formed (address accepted by `validateIP`, port between 0 and 65535,
secret accepted by `validatePassword`); when `editInstance` returns without
error, the registry is the former one with a well-formed record stored under
a name that was in the registry; and from a registry whose entries are all
well-formed, `addInstance`, `editInstance` and `deleteInstance` leave, on
every input, a registry whose entries are all well-formed. -/
theorem wizard_keeps_registry_well_formed (parseIPv6 : String → Option (List Nat))
    (lowerRune : Char → Char) (scanner : configure.Scanner) (cfg : config.Config) :
    ((configure.addInstance parseIPv6 scanner cfg).1 = none →
      ∃ (name : String) (inst : Instance),
        (configure.addInstance parseIPv6 scanner cfg).2.1 = config.AddInstance cfg name inst ∧
        config.GetInstance (configure.addInstance parseIPv6 scanner cfg).2.1 name
          = (inst, true) ∧
        configure.validateInstanceName name = none ∧
        (name ≠ "" ∧ name.length ≤ 72 ∧ ∀ c ∈ name.data, configure.nameChar c = true) ∧
        (config.GetInstance cfg name).2 = false ∧
        configure.WellFormedRecord parseIPv6 inst) ∧
    ((configure.editInstance parseIPv6 scanner cfg).1 = Run.returned none →
      ∃ (name : String) (inst : Instance),
        (configure.editInstance parseIPv6 scanner cfg).2.1 = config.AddInstance cfg name inst ∧
        config.GetInstance (configure.editInstance parseIPv6 scanner cfg).2.1 name
          = (inst, true) ∧
        (config.GetInstance cfg name).2 = true ∧
        configure.WellFormedRecord parseIPv6 inst) ∧
    (configure.editInstance parseIPv6 scanner cfg).1 ≠ Run.panicked ∧
    (configure.deleteInstance lowerRune scanner cfg).1 ≠ Run.panicked ∧
    (configure.WellFormedRegistry parseIPv6 cfg →
      configure.WellFormedRegistry parseIPv6
        (configure.addInstance parseIPv6 scanner cfg).2.1 ∧
      configure.WellFormedRegistry parseIPv6
        (configure.editInstance parseIPv6 scanner cfg).2.1 ∧
      configure.WellFormedRegistry parseIPv6
        (configure.deleteInstance lowerRune scanner cfg).2.1) := by
  have hadd : (configure.addInstance parseIPv6 scanner cfg).2.1 = cfg ∨
      ∃ (name : String) (inst : Instance),
        (configure.addInstance parseIPv6 scanner cfg).1 = none ∧
        (configure.addInstance parseIPv6 scanner cfg).2.1 = config.AddInstance cfg name inst ∧
        configure.validateInstanceName name = none ∧
        (config.GetInstance cfg name).2 = false ∧
        configure.WellFormedRecord parseIPv6 inst := by
    rcases configure.addInstance_cases parseIPv6 scanner cfg
      with ⟨_, _, hcfg⟩ | ⟨name, inst, sc1, h1, hnew, h2, hok, hcfg⟩
    · exact Or.inl hcfg
    · obtain ⟨ip, portStr, pw, sc2, sc3, hip, hport, hpw, hinst⟩ :=
        configure.promptInstanceConfig_success parseIPv6 sc1 _ inst h2
      refine Or.inr ⟨name, inst, hok, hcfg, configure.promptWithRetry_accepts _ _ _ _ h1, hnew, ?_⟩
      rw [hinst]
      exact configure.wellFormed_of_accepted parseIPv6 ip portStr pw
        (configure.promptWithRetry_accepts _ _ _ _ hip)
        (configure.promptWithRetry_accepts _ _ _ _ hport)
        (configure.promptWithRetry_accepts _ _ _ _ hpw)
  have hedit : ((∃ e, (configure.editInstance parseIPv6 scanner cfg).1 = Run.returned (some e)) ∧
        (configure.editInstance parseIPv6 scanner cfg).2.1 = cfg) ∨
      ∃ (name : String) (inst : Instance),
        (configure.editInstance parseIPv6 scanner cfg).1 = Run.returned none ∧
        (configure.editInstance parseIPv6 scanner cfg).2.1 = config.AddInstance cfg name inst ∧
        (config.GetInstance cfg name).2 = true ∧
        configure.WellFormedRecord parseIPv6 inst := by
    rcases configure.editInstance_cases parseIPv6 scanner cfg
      with ⟨e, he, hcfg⟩ | ⟨name, inst, line, sc1, choice, _, _, _, hmem, h2, hok, hcfg⟩
    · exact Or.inl ⟨⟨e, he⟩, hcfg⟩
    · obtain ⟨ip, portStr, pw, sc2, sc3, hip, hport, hpw, hinst⟩ :=
        configure.promptInstanceConfigWithDefaults_success parseIPv6 sc1 _ _ inst h2
      refine Or.inr ⟨name, inst, hok, hcfg, configure.found_of_listed cfg name hmem, ?_⟩
      rw [hinst]
      exact configure.wellFormed_of_accepted parseIPv6 ip portStr pw
        (configure.promptWithDefaults_accepts _ _ _ _ _ hip)
        (configure.promptWithDefaults_accepts _ _ _ _ _ hport)
        (configure.promptWithDefaults_accepts _ _ _ _ _ hpw)
  refine ⟨?_, ?_, ?_, (configure.deleteInstance_cases lowerRune scanner cfg).1, ?_⟩
  · intro hok
    rcases configure.addInstance_cases parseIPv6 scanner cfg
      with ⟨e, he, _⟩ | ⟨name, inst, sc1, h1, hnew, h2, _, hcfg⟩
    · rw [hok] at he
      cases he
    · obtain ⟨ip, portStr, pw, sc2, sc3, hip, hport, hpw, hinst⟩ :=
        configure.promptInstanceConfig_success parseIPv6 sc1 _ inst h2
      have hname := configure.promptWithRetry_accepts _ _ _ _ h1
      refine ⟨name, inst, hcfg, ?_, hname,
        (configure.validateInstanceName_eq_none_iff name).mp hname, hnew, ?_⟩
      · rw [hcfg]
        exact configure.found_after_store cfg name inst
      · rw [hinst]
        exact configure.wellFormed_of_accepted parseIPv6 ip portStr pw
          (configure.promptWithRetry_accepts _ _ _ _ hip)
          (configure.promptWithRetry_accepts _ _ _ _ hport)
          (configure.promptWithRetry_accepts _ _ _ _ hpw)
  · intro hok
    rcases hedit with ⟨⟨e, he⟩, _⟩ | ⟨name, inst, _, hcfg, hfound, hrec⟩
    · rw [hok] at he
      cases he
    · refine ⟨name, inst, hcfg, ?_, hfound, hrec⟩
      rw [hcfg]
      exact configure.found_after_store cfg name inst
  · rcases hedit with ⟨⟨e, he⟩, _⟩ | ⟨_, _, hok, _⟩
    · rw [he]
      intro h
      cases h
    · rw [hok]
      intro h
      cases h
  · intro hreg
    refine ⟨?_, ?_, ?_⟩
    · rcases hadd with hcfg | ⟨name, inst, _, hcfg, hname, _, hrec⟩
      · rw [hcfg]
        exact hreg
      · rw [hcfg]
        exact configure.wellFormed_AddInstance parseIPv6 cfg name inst hreg hname hrec
    · rcases hedit with ⟨_, hcfg⟩ | ⟨name, inst, _, hcfg, hfound, hrec⟩
      · rw [hcfg]
        exact hreg
      · rw [hcfg]
        exact configure.wellFormed_AddInstance parseIPv6 cfg name inst hreg
          (hreg name hfound).1 hrec
    · rcases (configure.deleteInstance_cases lowerRune scanner cfg).2 with hcfg | ⟨name, hcfg⟩
      · rw [hcfg]
        exact hreg
      · rw [hcfg]
        exact configure.wellFormed_DeleteInstance parseIPv6 cfg name hreg

/-- Witness of C15: adding `srv-2` at `1.2.3.4:80` to the registry that holds
`main` returns without error and stores the record under the new name. -/
theorem wizard_keeps_registry_well_formed_witness :
    (configure.addInstance configure.noIPv6 ["srv-2", "1.2.3.4", "80", "pw"]
        config.sampleConfig).1 = none ∧
    ∃ (name : String) (inst : Instance),
      (configure.addInstance configure.noIPv6 ["srv-2", "1.2.3.4", "80", "pw"]
          config.sampleConfig).2.1 = config.AddInstance config.sampleConfig name inst ∧
      configure.validateInstanceName name = none ∧
      (config.GetInstance config.sampleConfig name).2 = false ∧
      configure.WellFormedRecord configure.noIPv6 inst :=
  ⟨by decide,
   match (wizard_keeps_registry_well_formed configure.noIPv6 id
      ["srv-2", "1.2.3.4", "80", "pw"] config.sampleConfig).1 (by decide) with
   | ⟨name, inst, h1, _, h3, _, h5, h6⟩ => ⟨name, inst, h1, h3, h5, h6⟩⟩

end MotorTown
